import Mathlib

/-
Verification of the Contango token contract (contract.rs, fees.rs,
config.rs) against its natural-language specification.

Modelling conventions:
* Soroban `Address` values are opaque identifiers compared only for
  equality; they are embedded as `Nat`.
* Soroban `String` values (series ids, asset types, currencies, names,
  hashes) are likewise only compared for equality; they are embedded as
  `Nat`.
* Rust `i128` amounts are embedded as unbounded `Int`; `i128` division
  truncates toward zero, which is `Int.tdiv`.  Arithmetic overflow of
  i128 is out of scope.
* A Rust `panic!` aborts the Soroban invocation and rolls back storage;
  every contract entry point is therefore embedded as a function
  returning `Except Err Storage`, and a failing call leaves the state
  unchanged (`exec`).
* `require_auth` and event emission are external collaborators per the
  spec (section 6) and are not modelled.
-/

/-- Account identifier (Soroban `Address`, opaque, equality only). -/
abbrev Addr := Nat

/-- Opaque string identifier (Soroban `String`, equality only). -/
abbrev Ident := Nat

/-- Series metadata, from `contract.rs` (struct `SeriesMetadata`). -/
structure SeriesMetadata where
  id : Ident
  asset_type : Ident
  currency : Ident
  delivery_date : Nat
  producer : Addr
  storage_facility : Ident
  buyer : Option Addr
  location : Ident
  quantity_kg : Nat
  contract_hash : Ident
  is_future : Bool
  guarantee_agent : Option Addr
deriving DecidableEq

/-- Spot-mint distribution, from `contract.rs` (struct `Distribution`). -/
structure Distribution where
  producer_address : Addr
  storage_address : Addr
  producer_percent : Nat
  platform_percent : Nat
  storage_percent : Nat
deriving DecidableEq

/-- Configuration of the issuance variant.  The struct itself lives in a
  module not present under src/, but every field is fixed by its
  construction in `contract.rs` (the `Config` literal built by the
  contract's setup entry point). -/
structure TokenConfig where
  name : Ident
  symbol : Ident
  admin : Addr
  storage_address : Addr
  transfer_fee_percent : Nat
  burn_fee_percent : Nat
  platform_fee_percent : Nat
  storage_fee_percent : Nat
deriving DecidableEq

/-- Abort conditions of the contract entry points.  Each constructor
  corresponds to one `panic!` site (or `Option::unwrap` / `expect`
  panic) in the source.  `UnwrapNone` is the panic raised by unwrapping
  an absent `Option` value; it is not part of the specification's error
  taxonomy. -/
inductive Err where
  | AlreadyInit
  | InvalidDistribution
  | NotAFutureContract
  | SeriesNotFound
  | NoLockedTokens
  | InsufficientBalance
  | InsufficientLockedBalance
  | IncompatibleAssetTypes
  | FeeTooHigh
  | UnwrapNone
deriving DecidableEq

/-- Predicate on `Err` selecting the error names listed in the spec's
  error taxonomy (section 7).  `UnwrapNone` is a raw panic and is not in
  the taxonomy; neither is the locked-balance underflow panic. -/
def inSpecTaxonomy : Err → Bool
  | Err.AlreadyInit => true
  | Err.InvalidDistribution => true
  | Err.NotAFutureContract => true
  | Err.SeriesNotFound => true
  | Err.NoLockedTokens => true
  | Err.InsufficientBalance => true
  | Err.InsufficientLockedBalance => false
  | Err.IncompatibleAssetTypes => true
  | Err.FeeTooHigh => true
  | Err.UnwrapNone => false

/-- Contract storage of the issuance variant.  `balances` embeds the
  per-address `DataKey::Balance` entries (absent entry is 0, matching
  `get_balance`'s `unwrap_or(0)`); `locked` embeds
  `DataKey::LockedBalance`; `seriesMeta` embeds the per-series
  `DataKey::SeriesMetadata` entries; `total_supply` is the
  `TokenState.total_supply` field; `config` is the `DataKey::Config`
  entry (`none` before the contract is set up).  The `TokenState.balances`
  map of the source is never read or written by any entry point and is
  omitted; `TokenState.series` always mirrors the per-key entries. -/
structure Storage where
  config : Option TokenConfig
  total_supply : Int
  balances : Addr → Int
  locked : Addr → Int
  seriesMeta : Ident → Option SeriesMetadata

/-- Empty storage before the contract is set up. -/
def s0 : Storage :=
  { config := none
    total_supply := 0
    balances := fun _ => 0
    locked := fun _ => 0
    seriesMeta := fun _ => none }

/-- Helper `increase_balance` from `contract.rs` (lines 403-408): reads
  the current balance and stores `balance + amount`; no checks. -/
def increase_balance (s : Storage) (a : Addr) (amount : Int) : Storage :=
  { s with balances := Function.update s.balances a (s.balances a + amount) }

/-- Helper `decrease_balance` from `contract.rs` (lines 410-418): panics
  with the insufficient-balance message when `balance < amount`,
  otherwise stores `balance - amount`. -/
def decrease_balance (s : Storage) (a : Addr) (amount : Int) :
    Except Err Storage :=
  if s.balances a < amount then .error Err.InsufficientBalance
  else .ok { s with balances := Function.update s.balances a (s.balances a - amount) }

/-- Helper `increase_locked_balance` from `contract.rs` (lines 420-425). -/
def increase_locked_balance (s : Storage) (a : Addr) (amount : Int) : Storage :=
  { s with locked := Function.update s.locked a (s.locked a + amount) }

/-- Helper `decrease_locked_balance` from `contract.rs` (lines 427-435). -/
def decrease_locked_balance (s : Storage) (a : Addr) (amount : Int) :
    Except Err Storage :=
  if s.locked a < amount then .error Err.InsufficientLockedBalance
  else .ok { s with locked := Function.update s.locked a (s.locked a - amount) }

/-- Contract setup (`contract.rs` lines 56-87, the entry point the source
  spells with the reserved word this development cannot use as a name):
  fails if a configuration already exists, otherwise stores the default
  configuration (transfer fee 0, burn/platform/storage fees 50 bp) and a
  fresh `TokenState` with `total_supply = 0`. -/
def initContract (s : Storage) (name symbol : Ident)
    (admin storage_address : Addr) : Except Err Storage :=
  if s.config.isSome then .error Err.AlreadyInit
  else .ok { s with
    config := some
      { name := name
        symbol := symbol
        admin := admin
        storage_address := storage_address
        transfer_fee_percent := 0
        burn_fee_percent := 50
        platform_fee_percent := 50
        storage_fee_percent := 50 }
    total_supply := 0 }

/-- Entry point `mint_spot` from `contract.rs` (lines 90-134). -/
def mint_spot (s : Storage) (series_id : Ident) (metadata : SeriesMetadata)
    (distribution : Distribution) (amount : Int) : Except Err Storage :=
  match s.config with
  | none => .error Err.UnwrapNone
  | some config =>
    if distribution.producer_percent + distribution.platform_percent
        + distribution.storage_percent ≠ 10000 then
      .error Err.InvalidDistribution
    else
      let s := { s with seriesMeta := Function.update s.seriesMeta series_id (some metadata) }
      let producer_amount := Int.tdiv (amount * (distribution.producer_percent : Int)) 10000
      let platform_amount := Int.tdiv (amount * (distribution.platform_percent : Int)) 10000
      let storage_amount := Int.tdiv (amount * (distribution.storage_percent : Int)) 10000
      let s := increase_balance s distribution.producer_address producer_amount
      let s := increase_balance s config.admin platform_amount
      let s := increase_balance s distribution.storage_address storage_amount
      .ok { s with total_supply := s.total_supply + amount }

/-- Entry point `mint_future` from `contract.rs` (lines 137-183). -/
def mint_future (s : Storage) (series_id : Ident) (metadata : SeriesMetadata)
    (buyer guarantee_agent : Addr) (amount : Int) : Except Err Storage :=
  match s.config with
  | none => .error Err.UnwrapNone
  | some config =>
    if !metadata.is_future then .error Err.NotAFutureContract
    else
      let future_metadata :=
        { metadata with buyer := some buyer, guarantee_agent := some guarantee_agent }
      let s := { s with seriesMeta := Function.update s.seriesMeta series_id (some future_metadata) }
      let buyer_amount := Int.tdiv (amount * 9900) 10000
      let platform_amount := Int.tdiv (amount * 50) 10000
      let guarantee_amount := Int.tdiv (amount * 50) 10000
      let s := increase_locked_balance s buyer buyer_amount
      let s := increase_balance s config.admin platform_amount
      let s := increase_balance s guarantee_agent guarantee_amount
      .ok { s with total_supply := s.total_supply + amount }

/-- Entry point `confirm_delivery` from `contract.rs` (lines 185-222).
  Note the `metadata.buyer.unwrap()` on line 206: when the stored
  metadata has no buyer this is a raw panic (`UnwrapNone`). -/
def confirm_delivery (s : Storage) (series_id : Ident)
    (_storage_validator : Addr) : Except Err Storage :=
  match s.config with
  | none => .error Err.UnwrapNone
  | some _ =>
    match s.seriesMeta series_id with
    | none => .error Err.SeriesNotFound
    | some metadata =>
      if !metadata.is_future then .error Err.NotAFutureContract
      else
        match metadata.buyer with
        | none => .error Err.UnwrapNone
        | some buyer =>
          let locked_amount := s.locked buyer
          if locked_amount = 0 then .error Err.NoLockedTokens
          else
            match decrease_locked_balance s buyer locked_amount with
            | .error e => .error e
            | .ok s => .ok (increase_balance s buyer locked_amount)

/-- Entry point `burn` from `contract.rs` (lines 225-256). -/
def burn (s : Storage) (from_ : Addr) (_series_id : Ident) (amount : Int) :
    Except Err Storage :=
  match s.config with
  | none => .error Err.UnwrapNone
  | some config =>
    let balance := s.balances from_
    if balance < amount then .error Err.InsufficientBalance
    else
      let fee_amount := Int.tdiv (amount * (config.burn_fee_percent : Int)) 10000
      let burn_amount := amount - fee_amount
      let platform_fee := Int.tdiv fee_amount 2
      let storage_fee := fee_amount - platform_fee
      match decrease_balance s from_ amount with
      | .error e => .error e
      | .ok s =>
        let s := increase_balance s config.admin platform_fee
        let s := increase_balance s config.storage_address storage_fee
        .ok { s with total_supply := s.total_supply - burn_amount }

/-- Entry point `transfer` from `contract.rs` (lines 259-287). -/
def transfer (s : Storage) (from_ to_ : Addr) (amount : Int)
    (apply_fee : Bool) : Except Err Storage :=
  match s.config with
  | none => .error Err.UnwrapNone
  | some config =>
    if s.balances from_ < amount then .error Err.InsufficientBalance
    else if apply_fee ∧ 0 < config.transfer_fee_percent then
      let fee := Int.tdiv (amount * (config.transfer_fee_percent : Int)) 10000
      let transfer_amount := amount - fee
      match decrease_balance s from_ amount with
      | .error e => .error e
      | .ok s =>
        let s := increase_balance s to_ transfer_amount
        .ok (increase_balance s config.admin fee)
    else
      match decrease_balance s from_ amount with
      | .error e => .error e
      | .ok s => .ok (increase_balance s to_ amount)

/-- Entry point `set_transfer_fee` from `contract.rs` (lines 290-301). -/
def set_transfer_fee (s : Storage) (fee_percent : Nat) : Except Err Storage :=
  match s.config with
  | none => .error Err.UnwrapNone
  | some config =>
    if fee_percent > 500 then .error Err.FeeTooHigh
    else .ok { s with config := some { config with transfer_fee_percent := fee_percent } }

/-- Entry point `swap` from `contract.rs` (lines 303-354). -/
def swap (s : Storage) (from_ : Addr) (from_series to_series : Ident)
    (amount oracle_price : Int) : Except Err Storage :=
  match s.config with
  | none => .error Err.UnwrapNone
  | some _ =>
    if s.balances from_ < amount then .error Err.InsufficientBalance
    else
      match s.seriesMeta from_series with
      | none => .error Err.SeriesNotFound
      | some from_metadata =>
        match s.seriesMeta to_series with
        | none => .error Err.SeriesNotFound
        | some to_metadata =>
          if from_metadata.asset_type ≠ to_metadata.asset_type then
            .error Err.IncompatibleAssetTypes
          else
            let swap_amount := Int.tdiv (amount * oracle_price) 10000
            match decrease_balance s from_ amount with
            | .error e => .error e
            | .ok s => .ok (increase_balance s from_ swap_amount)

/-- Public operations of the issuance variant (spec section 6).  The
  constructor `initC` is the setup entry point. -/
inductive Op where
  | initC (name symbol : Ident) (admin storage_address : Addr)
  | mintSpot (series_id : Ident) (metadata : SeriesMetadata)
      (distribution : Distribution) (amount : Int)
  | mintFuture (series_id : Ident) (metadata : SeriesMetadata)
      (buyer guarantee_agent : Addr) (amount : Int)
  | confirmDelivery (series_id : Ident) (storage_validator : Addr)
  | transferOp (from_ to_ : Addr) (amount : Int) (apply_fee : Bool)
  | burnOp (from_ : Addr) (series_id : Ident) (amount : Int)
  | swapOp (from_ : Addr) (from_series to_series : Ident)
      (amount oracle_price : Int)
  | setTransferFee (fee_percent : Nat)

/-- Dispatch one public operation. -/
def step (s : Storage) : Op → Except Err Storage
  | Op.initC name symbol admin storage_address =>
      initContract s name symbol admin storage_address
  | Op.mintSpot series_id metadata distribution amount =>
      mint_spot s series_id metadata distribution amount
  | Op.mintFuture series_id metadata buyer guarantee_agent amount =>
      mint_future s series_id metadata buyer guarantee_agent amount
  | Op.confirmDelivery series_id storage_validator =>
      confirm_delivery s series_id storage_validator
  | Op.transferOp from_ to_ amount apply_fee => transfer s from_ to_ amount apply_fee
  | Op.burnOp from_ series_id amount => burn s from_ series_id amount
  | Op.swapOp from_ from_series to_series amount oracle_price =>
      swap s from_ from_series to_series amount oracle_price
  | Op.setTransferFee fee_percent => set_transfer_fee s fee_percent

/-- Execute one operation; a panic rolls the transaction back, so a
  failing operation leaves the storage unchanged. -/
def exec (s : Storage) (op : Op) : Storage :=
  match step s op with
  | .ok s' => s'
  | .error _ => s

/-- Execute a sequence of operations from a starting state. -/
def run (s : Storage) (ops : List Op) : Storage :=
  ops.foldl exec s

/-- Boolean success observer for `Except` results. -/
def okB {α : Type} : Except Err α → Bool
  | .ok _ => true
  | .error _ => false

/-- Error observer for `Except` results. -/
def errOf {α : Type} : Except Err α → Option Err
  | .ok _ => none
  | .error e => some e

/-- Result observer for balance-map results: the new map on success, the
  unchanged map on failure (a panic rolls the transaction back). -/
def balOf (r : Except Err (Addr → Int)) (fallback : Addr → Int) : Addr → Int :=
  match r with
  | .ok b => b
  | .error _ => fallback

/-
Two-party fee variant (`fees.rs`, `config.rs`).  Its balance module
(`balance.rs`) is declared in `lib.rs` but is not under src/; its three
operations are modelled from the spec (section 4.1).
-/

/-- Configuration of the two-party variant, from `config.rs`
  (struct `Config`). -/
structure Config where
  mediator_address : Addr
  mediator_fee : Nat
  buyer_address : Addr
  buyer_fee : Nat
  contango_hash : Ident
deriving DecidableEq

/-- Fee split result, from `fees.rs` (struct `FeeCalculation`). -/
structure FeeCalculation where
  mediator_fee : Int
  buyer_fee : Int
  net_amount : Int
deriving DecidableEq

/-- Fee computation `FeeCalculation::calculate` from `fees.rs`
  (lines 12-25): both fees are basis-point shares of the gross amount,
  computed independently; the net amount is the gross amount minus both
  fees. -/
def FeeCalculation.calculate (amount : Int) (config : Config) : FeeCalculation :=
  let mediator_fee := Int.tdiv (amount * (config.mediator_fee : Int)) 10000
  let buyer_fee := Int.tdiv (amount * (config.buyer_fee : Int)) 10000
  let total_fees := mediator_fee + buyer_fee
  let net_amount := amount - total_fees
  { mediator_fee := mediator_fee, buyer_fee := buyer_fee, net_amount := net_amount }

/-- Modelled from the spec: `read_balance` of the missing `balance.rs`;
  section 4.1 specifies `get(account) -> amount` with default 0 and no
  error path. -/
def read_balance (b : Addr → Int) (a : Addr) : Int := b a

/-- Modelled from the spec: `receive_balance` of the missing
  `balance.rs`; section 4.1 specifies `credit(account, amount)` as a
  plain increase with no error path. -/
def receive_balance (b : Addr → Int) (a : Addr) (amount : Int) : Addr → Int :=
  Function.update b a (b a + amount)

/-- Modelled from the spec: `spend_balance` of the missing `balance.rs`;
  section 4.1 specifies `debit(account, amount)` failing with
  `InsufficientBalance` when the current balance is below `amount` and
  decreasing it otherwise. -/
def spend_balance (b : Addr → Int) (a : Addr) (amount : Int) :
    Except Err (Addr → Int) :=
  if b a < amount then .error Err.InsufficientBalance
  else .ok (Function.update b a (b a - amount))

/-- Fee-processed transfer `process_fees_and_transfer` from `fees.rs`
  (lines 27-57).  The configuration argument mirrors `read_config`
  (an absent configuration makes the source's `expect` panic). -/
def process_fees_and_transfer (config? : Option Config) (b : Addr → Int)
    (from_ to_ : Addr) (amount : Int) : Except Err (Addr → Int) :=
  match config? with
  | none => .error Err.UnwrapNone
  | some config =>
    let fee_calc := FeeCalculation.calculate amount config
    if read_balance b from_ < amount then .error Err.InsufficientBalance
    else
      match spend_balance b from_ amount with
      | .error e => .error e
      | .ok b =>
        let b := receive_balance b to_ fee_calc.net_amount
        let b := if 0 < fee_calc.mediator_fee then
            receive_balance b config.mediator_address fee_calc.mediator_fee
          else b
        let b := if 0 < fee_calc.buyer_fee then
            receive_balance b config.buyer_address fee_calc.buyer_fee
          else b
        .ok b

/-
Invariant vocabulary for the reachable-state claims.
-/

/-- Covering set: all accounts outside `A` hold zero available and zero
  locked balance. -/
def covers (s : Storage) (A : Finset Addr) : Prop :=
  ∀ a, a ∉ A → s.balances a = 0 ∧ s.locked a = 0

/-- Sum of available plus locked balances over a finite account set. -/
def sumW (A : Finset Addr) (s : Storage) : Int :=
  ∑ a ∈ A, (s.balances a + s.locked a)

/-- Conservation: the total supply equals the sum of all available and
  locked balances; stated against every finite set covering the support
  of the ledger. -/
def conserved (s : Storage) : Prop :=
  ∀ A : Finset Addr, covers s A → s.total_supply = sumW A s

/-- Operations whose success preserves conservation (the amended C1):
  everything except spot/future minting and swap. -/
def isConservative : Op → Bool
  | Op.mintSpot _ _ _ _ => false
  | Op.mintFuture _ _ _ _ _ => false
  | Op.swapOp _ _ _ _ _ => false
  | _ => true

/-- Operations whose supplied amounts (and, for swap, oracle rate) are
  nonnegative (hypothesis of the amended C2). -/
def goodOp : Op → Bool
  | Op.mintSpot _ _ _ amount => decide (0 ≤ amount)
  | Op.mintFuture _ _ _ _ amount => decide (0 ≤ amount)
  | Op.transferOp _ _ amount _ => decide (0 ≤ amount)
  | Op.burnOp _ _ amount => decide (0 ≤ amount)
  | Op.swapOp _ _ _ amount oracle_price =>
      decide (0 ≤ amount) && decide (0 ≤ oracle_price)
  | _ => true

/-- Nonnegativity of every available and locked balance. -/
def nonnegLedger (s : Storage) : Prop :=
  ∀ a, 0 ≤ s.balances a ∧ 0 ≤ s.locked a

/-
Concrete fixtures used by the counterexamples and witnesses.  Address
conventions: 0 = admin, 1 = storage address, 2 = producer, 3+ = other
parties.  Identifier values are arbitrary distinct numbers.
-/

/-- Spot series metadata fixture (`is_future = false`, no buyer). -/
def mdSpot : SeriesMetadata :=
  { id := 10
    asset_type := 20
    currency := 21
    delivery_date := 1735689600
    producer := 2
    storage_facility := 22
    buyer := none
    location := 23
    quantity_kg := 1000000
    contract_hash := 24
    is_future := false
    guarantee_agent := none }

/-- Future series metadata fixture (`is_future = true`); mint_future
  overwrites the buyer and guarantee-agent fields. -/
def mdFut : SeriesMetadata :=
  { mdSpot with is_future := true }

/-- Future-flagged metadata with no buyer, as a caller may hand to
  `mint_spot` (which stores it unchecked). -/
def mdFutNoBuyer : SeriesMetadata := mdFut

/-- Standard 99 / 0.5 / 0.5 distribution paying producer 2 and storage 1. -/
def dstd : Distribution :=
  { producer_address := 2
    storage_address := 1
    producer_percent := 9900
    platform_percent := 50
    storage_percent := 50 }

/-- Distribution whose percentages sum to 9900, not 10000. -/
def dbad : Distribution :=
  { dstd with producer_percent := 9800 }

/-- Configured ledger: the state after setting up the contract with
  admin 0 and storage address 1. -/
def sInit : Storage := exec s0 (Op.initC 30 31 0 1)

/-- All accounts hold zero and the supply is zero. -/
def zeroLedger (s : Storage) : Prop :=
  (∀ a, s.balances a = 0 ∧ s.locked a = 0) ∧ s.total_supply = 0

/-- Inductive invariant for conservation: the ledger is conserved, and an
  unconfigured ledger is entirely zero. -/
def InvC (s : Storage) : Prop :=
  conserved s ∧ (s.config = none → zeroLedger s)

/-- Transfer fee rates reachable by the public operations never exceed
  10000 bp (they start at 0 and the setter caps them at 500). -/
def feeBounded (s : Storage) : Prop :=
  ∀ cfg, s.config = some cfg → cfg.transfer_fee_percent ≤ 10000

/-- Inductive invariant for the no-negative-balances claim. -/
def InvN (s : Storage) : Prop := nonnegLedger s ∧ feeBounded s

/-- Trace for the conservation counterexample: set up, then spot-mint
  amount 1 under the (9900, 50, 50) distribution. -/
def c1tr : List Op := [Op.initC 30 31 0 1, Op.mintSpot 10 mdSpot dstd 1]

/-- Conservative trace (setup, transfer, burn) for the amended C1. -/
def c1wtr : List Op :=
  [Op.initC 30 31 0 1, Op.transferOp 2 3 0 false, Op.burnOp 2 40 0]

/-- Trace reaching a negative balance: transfer of amount -5. -/
def c2tr : List Op := [Op.initC 30 31 0 1, Op.transferOp 2 3 (-5) false]

/-- Trace of nonnegative-amount operations for the amended C2. -/
def c2wtr : List Op :=
  [Op.initC 30 31 0 1, Op.mintSpot 10 mdSpot dstd 1000000,
    Op.transferOp 2 3 600 false]

/-- Configured state with two series (ids 10 and 11) of equal asset
  type, each spot-minted with amount 0. -/
def sTwoSeries : Storage :=
  run s0 [Op.initC 30 31 0 1, Op.mintSpot 10 mdSpot dstd 0,
    Op.mintSpot 11 mdSpot dstd 0]

/-- State after future-minting 500000 with the admin (address 0) as the
  buyer and 3 as guarantee agent. -/
def c4s1 : Storage := exec sInit (Op.mintFuture 12 mdFut 0 3 500000)

/-- State after confirming delivery of that series. -/
def c4s2 : Storage := exec c4s1 (Op.confirmDelivery 12 1)

/-- State where series 13 was spot-minted with future-flagged metadata
  carrying no buyer. -/
def c10s : Storage :=
  run s0 [Op.initC 30 31 0 1, Op.mintSpot 13 mdFutNoBuyer dstd 1000000]

/-
Helper lemmas about balance updates and sums.
-/

lemma sum_update_int (A : Finset Addr) (f : Addr → Int) (a : Addr)
    (ha : a ∈ A) (v : Int) :
    (∑ b ∈ A, Function.update f a v b) = (∑ b ∈ A, f b) + (v - f a) := by
  rw [Finset.sum_update_of_mem ha]
  rw [Finset.sum_eq_sum_diff_singleton_add ha f]
  ring

lemma sumW_increase_balance (A : Finset Addr) (s : Storage) (a : Addr)
    (ha : a ∈ A) (d : Int) :
    sumW A (increase_balance s a d) = sumW A s + d := by
  unfold sumW increase_balance
  rw [Finset.sum_add_distrib, Finset.sum_add_distrib,
    sum_update_int A s.balances a ha]
  ring

lemma sumW_increase_locked (A : Finset Addr) (s : Storage) (a : Addr)
    (ha : a ∈ A) (d : Int) :
    sumW A (increase_locked_balance s a d) = sumW A s + d := by
  unfold sumW increase_locked_balance
  rw [Finset.sum_add_distrib, Finset.sum_add_distrib,
    sum_update_int A s.locked a ha]
  ring

lemma decrease_balance_ok {s s' : Storage} {a : Addr} {d : Int}
    (h : decrease_balance s a d = .ok s') :
    s' = increase_balance s a (-d) ∧ ¬ s.balances a < d := by
  unfold decrease_balance at h
  by_cases hlt : s.balances a < d
  · simp [hlt] at h
  · refine ⟨?_, hlt⟩
    simp only [hlt, if_false, Except.ok.injEq] at h
    rw [← h]
    unfold increase_balance
    rw [sub_eq_add_neg]

lemma decrease_locked_ok {s s' : Storage} {a : Addr} {d : Int}
    (h : decrease_locked_balance s a d = .ok s') :
    s' = increase_locked_balance s a (-d) ∧ ¬ s.locked a < d := by
  unfold decrease_locked_balance at h
  by_cases hlt : s.locked a < d
  · simp [hlt] at h
  · refine ⟨?_, hlt⟩
    simp only [hlt, if_false, Except.ok.injEq] at h
    rw [← h]
    unfold increase_locked_balance
    rw [sub_eq_add_neg]

@[simp] lemma increase_balance_locked (s : Storage) (a : Addr) (d : Int) :
    (increase_balance s a d).locked = s.locked := rfl

@[simp] lemma increase_balance_supply (s : Storage) (a : Addr) (d : Int) :
    (increase_balance s a d).total_supply = s.total_supply := rfl

@[simp] lemma increase_balance_config (s : Storage) (a : Addr) (d : Int) :
    (increase_balance s a d).config = s.config := rfl

@[simp] lemma increase_balance_seriesMeta (s : Storage) (a : Addr) (d : Int) :
    (increase_balance s a d).seriesMeta = s.seriesMeta := rfl

@[simp] lemma increase_locked_balances (s : Storage) (a : Addr) (d : Int) :
    (increase_locked_balance s a d).balances = s.balances := rfl

@[simp] lemma increase_locked_supply (s : Storage) (a : Addr) (d : Int) :
    (increase_locked_balance s a d).total_supply = s.total_supply := rfl

@[simp] lemma increase_locked_config (s : Storage) (a : Addr) (d : Int) :
    (increase_locked_balance s a d).config = s.config := rfl

@[simp] lemma increase_locked_seriesMeta (s : Storage) (a : Addr) (d : Int) :
    (increase_locked_balance s a d).seriesMeta = s.seriesMeta := rfl

lemma increase_balance_at_ne (s : Storage) (a b : Addr) (d : Int)
    (h : b ≠ a) : (increase_balance s a d).balances b = s.balances b := by
  unfold increase_balance
  exact Function.update_noteq h _ _

lemma increase_locked_at_ne (s : Storage) (a b : Addr) (d : Int)
    (h : b ≠ a) : (increase_locked_balance s a d).locked b = s.locked b := by
  unfold increase_locked_balance
  exact Function.update_noteq h _ _

lemma increase_balance_at (s : Storage) (a : Addr) (d : Int) :
    (increase_balance s a d).balances a = s.balances a + d := by
  unfold increase_balance
  exact Function.update_same a _ _

lemma increase_locked_at (s : Storage) (a : Addr) (d : Int) :
    (increase_locked_balance s a d).locked a = s.locked a + d := by
  unfold increase_locked_balance
  exact Function.update_same a _ _

/-- Transport of conservation along a state change that touches only the
  accounts in `T` and shifts every covering sum by exactly the change in
  total supply. -/
lemma conserved_of_delta {s s' : Storage} (T : Finset Addr)
    (hb : ∀ a, a ∉ T → s'.balances a = s.balances a)
    (hl : ∀ a, a ∉ T → s'.locked a = s.locked a)
    (hs : ∀ B : Finset Addr, T ⊆ B →
      sumW B s' = sumW B s + (s'.total_supply - s.total_supply))
    (hc : conserved s) : conserved s' := by
  intro A hA
  have hAB : A ⊆ A ∪ T := Finset.subset_union_left
  have hTB : T ⊆ A ∪ T := Finset.subset_union_right
  have hcov : covers s (A ∪ T) := by
    intro a ha
    have haA : a ∉ A := fun h => ha (hAB h)
    have haT : a ∉ T := fun h => ha (hTB h)
    have h0 := hA a haA
    exact ⟨(hb a haT).symm.trans h0.1, (hl a haT).symm.trans h0.2⟩
  have h1 : s.total_supply = sumW (A ∪ T) s := hc _ hcov
  have h2 := hs (A ∪ T) hTB
  have h3 : sumW A s' = sumW (A ∪ T) s' := by
    apply Finset.sum_subset hAB
    intro x _ hxA
    have h0 := hA x hxA
    rw [h0.1, h0.2]
    ring
  rw [h3, h2, ← h1]
  ring

lemma decrease_balance_eq_ok {s : Storage} {a : Addr} {d : Int}
    (h : ¬ s.balances a < d) :
    decrease_balance s a d = .ok (increase_balance s a (-d)) := by
  unfold decrease_balance increase_balance
  rw [if_neg h, sub_eq_add_neg]

lemma decrease_locked_eq_ok {s : Storage} {a : Addr} {d : Int}
    (h : ¬ s.locked a < d) :
    decrease_locked_balance s a d = .ok (increase_locked_balance s a (-d)) := by
  unfold decrease_locked_balance increase_locked_balance
  rw [if_neg h, sub_eq_add_neg]

lemma conserved_initContract {s s' : Storage} {n sym : Ident} {ad st : Addr}
    (h : initContract s n sym ad st = .ok s')
    (hz : s.config = none → zeroLedger s) : conserved s' := by
  unfold initContract at h
  by_cases hc : s.config.isSome
  · simp [hc] at h
  · have hnone : s.config = none := by
      cases hcfg : s.config with
      | none => rfl
      | some c => rw [hcfg] at hc; simp at hc
    have hzl := hz hnone
    rw [hnone] at h
    simp only [Option.isSome_none, Bool.false_eq_true, if_false,
      Except.ok.injEq] at h
    intro A _
    rw [← h]
    unfold sumW
    have : ∀ a ∈ A, s.balances a + s.locked a = 0 := by
      intro a _
      rw [(hzl.1 a).1, (hzl.1 a).2]
      ring
    rw [Finset.sum_congr rfl this]
    simp

lemma conserved_transfer {s s' : Storage} {frm to_ : Addr} {amount : Int}
    {fl : Bool} (h : transfer s frm to_ amount fl = .ok s')
    (hc : conserved s) : conserved s' := by
  unfold transfer at h
  cases hcfg : s.config with
  | none => rw [hcfg] at h; simp at h
  | some cfg =>
    rw [hcfg] at h
    simp only [] at h
    by_cases hlt : s.balances frm < amount
    · rw [if_pos hlt] at h; simp at h
    · rw [if_neg hlt] at h
      by_cases hfee : (fl : Prop) ∧ 0 < cfg.transfer_fee_percent
      · rw [if_pos hfee, decrease_balance_eq_ok hlt] at h
        simp only [Except.ok.injEq] at h
        subst h
        apply conserved_of_delta ({frm, to_, cfg.admin} : Finset Addr) ?_ ?_ ?_ hc
        · intro a ha
          simp only [Finset.mem_insert, Finset.mem_singleton, not_or] at ha
          rw [increase_balance_at_ne _ _ _ _ ha.2.2,
            increase_balance_at_ne _ _ _ _ ha.2.1,
            increase_balance_at_ne _ _ _ _ ha.1]
        · intro a _
          simp
        · intro B hTB
          have hfrm : frm ∈ B := hTB (by simp)
          have hto : to_ ∈ B := hTB (by simp)
          have had : cfg.admin ∈ B := hTB (by simp)
          rw [sumW_increase_balance _ _ _ had, sumW_increase_balance _ _ _ hto,
            sumW_increase_balance _ _ _ hfrm]
          simp only [increase_balance_supply]
          ring
      · rw [if_neg hfee, decrease_balance_eq_ok hlt] at h
        simp only [Except.ok.injEq] at h
        subst h
        apply conserved_of_delta ({frm, to_} : Finset Addr) ?_ ?_ ?_ hc
        · intro a ha
          simp only [Finset.mem_insert, Finset.mem_singleton, not_or] at ha
          rw [increase_balance_at_ne _ _ _ _ ha.2,
            increase_balance_at_ne _ _ _ _ ha.1]
        · intro a _
          simp
        · intro B hTB
          have hfrm : frm ∈ B := hTB (by simp)
          have hto : to_ ∈ B := hTB (by simp)
          rw [sumW_increase_balance _ _ _ hto, sumW_increase_balance _ _ _ hfrm]
          simp only [increase_balance_supply]
          ring

@[simp] lemma set_supply_balances (s : Storage) (v : Int) :
    ({ s with total_supply := v } : Storage).balances = s.balances := rfl

@[simp] lemma set_supply_locked (s : Storage) (v : Int) :
    ({ s with total_supply := v } : Storage).locked = s.locked := rfl

@[simp] lemma set_supply_config (s : Storage) (v : Int) :
    ({ s with total_supply := v } : Storage).config = s.config := rfl

@[simp] lemma set_supply_seriesMeta (s : Storage) (v : Int) :
    ({ s with total_supply := v } : Storage).seriesMeta = s.seriesMeta := rfl

@[simp] lemma set_supply_supply (s : Storage) (v : Int) :
    ({ s with total_supply := v } : Storage).total_supply = v := rfl

@[simp] lemma sumW_set_supply (A : Finset Addr) (s : Storage) (v : Int) :
    sumW A { s with total_supply := v } = sumW A s := rfl

@[simp] lemma set_meta_balances (s : Storage) (f : Ident → Option SeriesMetadata) :
    ({ s with seriesMeta := f } : Storage).balances = s.balances := rfl

@[simp] lemma set_meta_locked (s : Storage) (f : Ident → Option SeriesMetadata) :
    ({ s with seriesMeta := f } : Storage).locked = s.locked := rfl

@[simp] lemma set_meta_config (s : Storage) (f : Ident → Option SeriesMetadata) :
    ({ s with seriesMeta := f } : Storage).config = s.config := rfl

@[simp] lemma set_meta_supply (s : Storage) (f : Ident → Option SeriesMetadata) :
    ({ s with seriesMeta := f } : Storage).total_supply = s.total_supply := rfl

@[simp] lemma sumW_set_meta (A : Finset Addr) (s : Storage)
    (f : Ident → Option SeriesMetadata) :
    sumW A { s with seriesMeta := f } = sumW A s := rfl

lemma conserved_burn {s s' : Storage} {frm : Addr} {sid : Ident}
    {amount : Int} (h : burn s frm sid amount = .ok s')
    (hc : conserved s) : conserved s' := by
  unfold burn at h
  cases hcfg : s.config with
  | none => rw [hcfg] at h; simp at h
  | some cfg =>
    rw [hcfg] at h
    simp only [] at h
    by_cases hlt : s.balances frm < amount
    · rw [if_pos hlt] at h; simp at h
    · rw [if_neg hlt, decrease_balance_eq_ok hlt] at h
      simp only [Except.ok.injEq] at h
      subst h
      apply conserved_of_delta ({frm, cfg.admin, cfg.storage_address} : Finset Addr) ?_ ?_ ?_ hc
      · intro a ha
        simp only [Finset.mem_insert, Finset.mem_singleton, not_or] at ha
        rw [set_supply_balances]
        rw [increase_balance_at_ne _ _ _ _ ha.2.2,
          increase_balance_at_ne _ _ _ _ ha.2.1,
          increase_balance_at_ne _ _ _ _ ha.1]
      · intro a _
        simp
      · intro B hTB
        have hfrm : frm ∈ B := hTB (by simp)
        have had : cfg.admin ∈ B := hTB (by simp)
        have hst : cfg.storage_address ∈ B := hTB (by simp)
        rw [sumW_set_supply, sumW_increase_balance _ _ _ hst,
          sumW_increase_balance _ _ _ had, sumW_increase_balance _ _ _ hfrm]
        simp only [set_supply_supply, increase_balance_supply]
        ring

lemma conserved_confirm_delivery {s s' : Storage} {sid : Ident} {v : Addr}
    (h : confirm_delivery s sid v = .ok s') (hc : conserved s) :
    conserved s' := by
  unfold confirm_delivery at h
  cases hcfg : s.config with
  | none => rw [hcfg] at h; simp at h
  | some cfg =>
    rw [hcfg] at h
    cases hmeta : s.seriesMeta sid with
    | none => rw [hmeta] at h; simp at h
    | some m =>
      rw [hmeta] at h
      simp only [] at h
      by_cases hfut : !m.is_future
      · rw [if_pos hfut] at h; simp at h
      · rw [if_neg hfut] at h
        cases hbuy : m.buyer with
        | none => rw [hbuy] at h; simp at h
        | some buyer =>
          rw [hbuy] at h
          simp only [] at h
          by_cases hz : s.locked buyer = 0
          · rw [if_pos hz] at h; simp at h
          · rw [if_neg hz] at h
            have hnlt : ¬ s.locked buyer < s.locked buyer := lt_irrefl _
            rw [decrease_locked_eq_ok hnlt] at h
            simp only [Except.ok.injEq] at h
            subst h
            apply conserved_of_delta ({buyer} : Finset Addr) ?_ ?_ ?_ hc
            · intro a ha
              simp only [Finset.mem_singleton] at ha
              rw [increase_balance_at_ne _ _ _ _ ha]
              simp
            · intro a ha
              simp only [Finset.mem_singleton] at ha
              simp only [increase_balance_locked]
              rw [increase_locked_at_ne _ _ _ _ ha]
            · intro B hTB
              have hb : buyer ∈ B := hTB (by simp)
              rw [sumW_increase_balance _ _ _ hb, sumW_increase_locked _ _ _ hb]
              simp only [increase_balance_supply, increase_locked_supply]
              ring

lemma conserved_set_transfer_fee {s s' : Storage} {p : Nat}
    (h : set_transfer_fee s p = .ok s') (hc : conserved s) : conserved s' := by
  unfold set_transfer_fee at h
  cases hcfg : s.config with
  | none => rw [hcfg] at h; simp at h
  | some cfg =>
    rw [hcfg] at h
    simp only [] at h
    by_cases hhi : p > 500
    · rw [if_pos hhi] at h; simp at h
    · rw [if_neg hhi] at h
      simp only [Except.ok.injEq] at h
      subst h
      exact hc

lemma decrease_balance_config {s s' : Storage} {a : Addr} {d : Int}
    (h : decrease_balance s a d = .ok s') : s'.config = s.config := by
  obtain ⟨h1, -⟩ := decrease_balance_ok h
  subst h1
  rfl

lemma decrease_locked_config {s s' : Storage} {a : Addr} {d : Int}
    (h : decrease_locked_balance s a d = .ok s') : s'.config = s.config := by
  obtain ⟨h1, -⟩ := decrease_locked_ok h
  subst h1
  rfl

/-- Every successful public operation leaves the contract configured. -/
lemma step_ok_config {s s' : Storage} {op : Op} (h : step s op = .ok s') :
    ∃ c, s'.config = some c := by
  cases op with
  | initC n sym ad st =>
    simp only [step] at h
    unfold initContract at h
    split at h
    · simp at h
    · simp only [Except.ok.injEq] at h
      subst h
      exact ⟨_, rfl⟩
  | mintSpot sid m d amount =>
    simp only [step] at h
    unfold mint_spot at h
    cases hcfg : s.config with
    | none => rw [hcfg] at h; simp at h
    | some cfg =>
      rw [hcfg] at h
      simp only [] at h
      by_cases hd : d.producer_percent + d.platform_percent + d.storage_percent ≠ 10000
      · rw [if_pos hd] at h; simp at h
      · rw [if_neg hd] at h
        simp only [Except.ok.injEq] at h
        subst h
        exact ⟨cfg, by simp [hcfg]⟩
  | mintFuture sid m b g amount =>
    simp only [step] at h
    unfold mint_future at h
    cases hcfg : s.config with
    | none => rw [hcfg] at h; simp at h
    | some cfg =>
      rw [hcfg] at h
      simp only [] at h
      by_cases hfut : (!m.is_future : Bool) = true
      · rw [if_pos hfut] at h; simp at h
      · rw [if_neg hfut] at h
        simp only [Except.ok.injEq] at h
        subst h
        exact ⟨cfg, by simp [hcfg]⟩
  | confirmDelivery sid v =>
    simp only [step] at h
    unfold confirm_delivery at h
    cases hcfg : s.config with
    | none => rw [hcfg] at h; simp at h
    | some cfg =>
      rw [hcfg] at h
      cases hmeta : s.seriesMeta sid with
      | none => rw [hmeta] at h; simp at h
      | some m =>
        rw [hmeta] at h
        simp only [] at h
        by_cases hfut : (!m.is_future : Bool) = true
        · rw [if_pos hfut] at h; simp at h
        · rw [if_neg hfut] at h
          cases hbuy : m.buyer with
          | none => rw [hbuy] at h; simp at h
          | some buyer =>
            rw [hbuy] at h
            simp only [] at h
            by_cases hz : s.locked buyer = 0
            · rw [if_pos hz] at h; simp at h
            · rw [if_neg hz] at h
              have hnlt : ¬ s.locked buyer < s.locked buyer := lt_irrefl _
              rw [decrease_locked_eq_ok hnlt] at h
              simp only [Except.ok.injEq] at h
              subst h
              exact ⟨cfg, by simp [hcfg]⟩
  | transferOp frm to_ amount fl =>
    simp only [step] at h
    unfold transfer at h
    cases hcfg : s.config with
    | none => rw [hcfg] at h; simp at h
    | some cfg =>
      rw [hcfg] at h
      simp only [] at h
      by_cases hlt : s.balances frm < amount
      · rw [if_pos hlt] at h; simp at h
      · rw [if_neg hlt] at h
        by_cases hfee : (fl : Prop) ∧ 0 < cfg.transfer_fee_percent
        · rw [if_pos hfee, decrease_balance_eq_ok hlt] at h
          simp only [Except.ok.injEq] at h
          subst h
          exact ⟨cfg, by simp [hcfg]⟩
        · rw [if_neg hfee, decrease_balance_eq_ok hlt] at h
          simp only [Except.ok.injEq] at h
          subst h
          exact ⟨cfg, by simp [hcfg]⟩
  | burnOp frm sid amount =>
    simp only [step] at h
    unfold burn at h
    cases hcfg : s.config with
    | none => rw [hcfg] at h; simp at h
    | some cfg =>
      rw [hcfg] at h
      simp only [] at h
      by_cases hlt : s.balances frm < amount
      · rw [if_pos hlt] at h; simp at h
      · rw [if_neg hlt, decrease_balance_eq_ok hlt] at h
        simp only [Except.ok.injEq] at h
        subst h
        exact ⟨cfg, by simp [hcfg]⟩
  | swapOp frm fs ts amount oracle =>
    simp only [step] at h
    unfold swap at h
    cases hcfg : s.config with
    | none => rw [hcfg] at h; simp at h
    | some cfg =>
      rw [hcfg] at h
      simp only [] at h
      by_cases hlt : s.balances frm < amount
      · rw [if_pos hlt] at h; simp at h
      · rw [if_neg hlt] at h
        cases hfm : s.seriesMeta fs with
        | none => rw [hfm] at h; simp at h
        | some fm =>
          rw [hfm] at h
          cases htm : s.seriesMeta ts with
          | none => rw [htm] at h; simp at h
          | some tm =>
            rw [htm] at h
            simp only [] at h
            by_cases hty : fm.asset_type ≠ tm.asset_type
            · rw [if_pos hty] at h; simp at h
            · rw [if_neg hty, decrease_balance_eq_ok hlt] at h
              simp only [Except.ok.injEq] at h
              subst h
              exact ⟨cfg, by simp [hcfg]⟩
  | setTransferFee p =>
    simp only [step] at h
    unfold set_transfer_fee at h
    cases hcfg : s.config with
    | none => rw [hcfg] at h; simp at h
    | some cfg =>
      rw [hcfg] at h
      simp only [] at h
      by_cases hhi : p > 500
      · rw [if_pos hhi] at h; simp at h
      · rw [if_neg hhi] at h
        simp only [Except.ok.injEq] at h
        subst h
        exact ⟨_, rfl⟩

lemma InvC_exec {s : Storage} {op : Op} (hop : isConservative op = true)
    (hI : InvC s) : InvC (exec s op) := by
  unfold exec
  cases hstep : step s op with
  | error e => exact hI
  | ok s' =>
    refine ⟨?_, ?_⟩
    · cases op with
      | initC n sym ad st =>
        simp only [step] at hstep
        exact conserved_initContract hstep hI.2
      | transferOp frm to_ amount fl =>
        simp only [step] at hstep
        exact conserved_transfer hstep hI.1
      | burnOp frm sid amount =>
        simp only [step] at hstep
        exact conserved_burn hstep hI.1
      | confirmDelivery sid v =>
        simp only [step] at hstep
        exact conserved_confirm_delivery hstep hI.1
      | setTransferFee p =>
        simp only [step] at hstep
        exact conserved_set_transfer_fee hstep hI.1
      | mintSpot sid m d amount => simp [isConservative] at hop
      | mintFuture sid m b g amount => simp [isConservative] at hop
      | swapOp frm fs ts amount oracle => simp [isConservative] at hop
    · intro hnone
      obtain ⟨c, hc⟩ := step_ok_config hstep
      rw [hc] at hnone
      exact absurd hnone (by simp)

lemma InvC_run {s : Storage} (ops : List Op)
    (hops : ∀ op ∈ ops, isConservative op = true) (hI : InvC s) :
    InvC (run s ops) := by
  induction ops generalizing s with
  | nil => exact hI
  | cons op rest ih =>
    have h1 : isConservative op = true := hops op (List.mem_cons_self op rest)
    have h2 : ∀ o ∈ rest, isConservative o = true := fun o ho =>
      hops o (List.mem_cons_of_mem op ho)
    exact ih h2 (InvC_exec h1 hI)

lemma InvC_s0 : InvC s0 :=
  ⟨fun A _ => by simp [s0, sumW], fun _ => ⟨fun _ => ⟨rfl, rfl⟩, rfl⟩⟩

/-
Arithmetic facts about truncating division used by the fee shares.
-/

lemma tdiv_share_nonneg {x : Int} {p : Nat} (hx : 0 ≤ x) :
    0 ≤ Int.tdiv (x * (p : Int)) 10000 :=
  Int.tdiv_nonneg (mul_nonneg hx (Int.natCast_nonneg p)) (by norm_num)

lemma tdiv_lit_nonneg {x c : Int} (hx : 0 ≤ x) (hc : 0 ≤ c) :
    0 ≤ Int.tdiv (x * c) 10000 :=
  Int.tdiv_nonneg (mul_nonneg hx hc) (by norm_num)

lemma tdiv_share_le {x : Int} {p : Nat} (hx : 0 ≤ x) (hp : p ≤ 10000) :
    Int.tdiv (x * (p : Int)) 10000 ≤ x := by
  have h1 : x * (p : Int) ≤ x * 10000 :=
    mul_le_mul_of_nonneg_left (by exact_mod_cast hp) hx
  have h2 : (0 : Int) ≤ x * (p : Int) := mul_nonneg hx (Int.natCast_nonneg p)
  rw [Int.tdiv_eq_ediv h2 (by norm_num)]
  calc x * (p : Int) / 10000 ≤ x * 10000 / 10000 :=
        Int.ediv_le_ediv (by norm_num) h1
    _ = x := Int.mul_ediv_cancel x (by norm_num)

lemma tdiv_half_nonneg {x : Int} (hx : 0 ≤ x) : 0 ≤ Int.tdiv x 2 :=
  Int.tdiv_nonneg hx (by norm_num)

lemma tdiv_half_le {x : Int} (hx : 0 ≤ x) : Int.tdiv x 2 ≤ x := by
  rw [Int.tdiv_eq_ediv hx (by norm_num)]
  exact Int.ediv_le_self 2 hx

/-
Pointwise nonnegativity preservation of the balance helpers.
-/

lemma nonneg_balances_increase {s : Storage} {a : Addr} {d : Int}
    (hB : ∀ b, 0 ≤ s.balances b) (hd : 0 ≤ d) :
    ∀ b, 0 ≤ (increase_balance s a d).balances b := by
  intro b
  show 0 ≤ Function.update s.balances a (s.balances a + d) b
  by_cases hba : b = a
  · subst hba
    rw [Function.update_same]
    exact add_nonneg (hB b) hd
  · rw [Function.update_noteq hba]
    exact hB b

lemma nonneg_locked_increase {s : Storage} {a : Addr} {d : Int}
    (hL : ∀ b, 0 ≤ s.locked b) (hd : 0 ≤ d) :
    ∀ b, 0 ≤ (increase_locked_balance s a d).locked b := by
  intro b
  show 0 ≤ Function.update s.locked a (s.locked a + d) b
  by_cases hba : b = a
  · subst hba
    rw [Function.update_same]
    exact add_nonneg (hL b) hd
  · rw [Function.update_noteq hba]
    exact hL b

lemma nonneg_balances_decrease {s : Storage} {a : Addr} {d : Int}
    (hB : ∀ b, 0 ≤ s.balances b) (hlt : ¬ s.balances a < d) :
    ∀ b, 0 ≤ (increase_balance s a (-d)).balances b := by
  intro b
  show 0 ≤ Function.update s.balances a (s.balances a + -d) b
  by_cases hba : b = a
  · subst hba
    rw [Function.update_same]
    have := not_lt.mp hlt
    linarith
  · rw [Function.update_noteq hba]
    exact hB b

lemma nonneg_locked_decrease {s : Storage} {a : Addr} {d : Int}
    (hL : ∀ b, 0 ≤ s.locked b) (hlt : ¬ s.locked a < d) :
    ∀ b, 0 ≤ (increase_locked_balance s a (-d)).locked b := by
  intro b
  show 0 ≤ Function.update s.locked a (s.locked a + -d) b
  by_cases hba : b = a
  · subst hba
    rw [Function.update_same]
    have := not_lt.mp hlt
    linarith
  · rw [Function.update_noteq hba]
    exact hL b

lemma InvN_exec {s : Storage} {op : Op} (hop : goodOp op = true)
    (hI : InvN s) : InvN (exec s op) := by
  have hB : ∀ b, 0 ≤ s.balances b := fun b => (hI.1 b).1
  have hL : ∀ b, 0 ≤ s.locked b := fun b => (hI.1 b).2
  unfold exec
  cases hstep : step s op with
  | error e => exact hI
  | ok s' =>
    cases op with
    | initC n sym ad st =>
      simp only [step] at hstep
      unfold initContract at hstep
      split at hstep
      · simp at hstep
      · simp only [Except.ok.injEq] at hstep
        subst hstep
        refine ⟨fun a => ⟨hB a, hL a⟩, ?_⟩
        intro c hc
        injection hc with hcc
        subst hcc
        exact Nat.zero_le 10000
    | mintSpot sid m d amount =>
      simp only [goodOp, decide_eq_true_eq] at hop
      simp only [step] at hstep
      unfold mint_spot at hstep
      cases hcfg : s.config with
      | none => rw [hcfg] at hstep; simp at hstep
      | some cfg =>
        rw [hcfg] at hstep
        simp only [] at hstep
        by_cases hd : d.producer_percent + d.platform_percent + d.storage_percent ≠ 10000
        · rw [if_pos hd] at hstep; simp at hstep
        · rw [if_neg hd] at hstep
          simp only [Except.ok.injEq] at hstep
          subst hstep
          refine ⟨fun a => ⟨?_, hL a⟩, ?_⟩
          · exact nonneg_balances_increase
              (nonneg_balances_increase
                (nonneg_balances_increase hB (tdiv_share_nonneg hop))
                (tdiv_share_nonneg hop))
              (tdiv_share_nonneg hop) a
          · intro c hc
            refine hI.2 c ?_
            rw [← hc]
            simp [hcfg]
    | mintFuture sid m b g amount =>
      simp only [goodOp, decide_eq_true_eq] at hop
      simp only [step] at hstep
      unfold mint_future at hstep
      cases hcfg : s.config with
      | none => rw [hcfg] at hstep; simp at hstep
      | some cfg =>
        rw [hcfg] at hstep
        simp only [] at hstep
        by_cases hfut : (!m.is_future : Bool) = true
        · rw [if_pos hfut] at hstep; simp at hstep
        · rw [if_neg hfut] at hstep
          simp only [Except.ok.injEq] at hstep
          subst hstep
          refine ⟨fun a => ⟨?_, ?_⟩, ?_⟩
          · exact nonneg_balances_increase
              (nonneg_balances_increase
                (fun x => hB x)
                (tdiv_lit_nonneg hop (by norm_num)))
              (tdiv_lit_nonneg hop (by norm_num)) a
          · exact nonneg_locked_increase
              (fun x => hL x) (tdiv_lit_nonneg hop (by norm_num)) a
          · intro c hc
            refine hI.2 c ?_
            rw [← hc]
            simp [hcfg]
    | confirmDelivery sid v =>
      simp only [step] at hstep
      unfold confirm_delivery at hstep
      cases hcfg : s.config with
      | none => rw [hcfg] at hstep; simp at hstep
      | some cfg =>
        rw [hcfg] at hstep
        cases hmeta : s.seriesMeta sid with
        | none => rw [hmeta] at hstep; simp at hstep
        | some m =>
          rw [hmeta] at hstep
          simp only [] at hstep
          by_cases hfut : (!m.is_future : Bool) = true
          · rw [if_pos hfut] at hstep; simp at hstep
          · rw [if_neg hfut] at hstep
            cases hbuy : m.buyer with
            | none => rw [hbuy] at hstep; simp at hstep
            | some buyer =>
              rw [hbuy] at hstep
              simp only [] at hstep
              by_cases hz : s.locked buyer = 0
              · rw [if_pos hz] at hstep; simp at hstep
              · rw [if_neg hz] at hstep
                have hnlt : ¬ s.locked buyer < s.locked buyer := lt_irrefl _
                rw [decrease_locked_eq_ok hnlt] at hstep
                simp only [Except.ok.injEq] at hstep
                subst hstep
                refine ⟨fun a => ⟨?_, ?_⟩, ?_⟩
                · exact nonneg_balances_increase
                    (fun x => hB x) (hL buyer) a
                · exact nonneg_locked_decrease hL hnlt a
                · intro c hc
                  refine hI.2 c ?_
                  rw [← hc]
                  simp [hcfg]
    | transferOp frm to_ amount fl =>
      simp only [goodOp, decide_eq_true_eq] at hop
      simp only [step] at hstep
      unfold transfer at hstep
      cases hcfg : s.config with
      | none => rw [hcfg] at hstep; simp at hstep
      | some cfg =>
        rw [hcfg] at hstep
        simp only [] at hstep
        by_cases hlt : s.balances frm < amount
        · rw [if_pos hlt] at hstep; simp at hstep
        · rw [if_neg hlt] at hstep
          have hp : cfg.transfer_fee_percent ≤ 10000 := hI.2 cfg hcfg
          by_cases hfee : (fl : Prop) ∧ 0 < cfg.transfer_fee_percent
          · rw [if_pos hfee, decrease_balance_eq_ok hlt] at hstep
            simp only [Except.ok.injEq] at hstep
            subst hstep
            have h1 : (0 : Int) ≤ Int.tdiv (amount * (cfg.transfer_fee_percent : Int)) 10000 :=
              tdiv_share_nonneg hop
            have h2 : Int.tdiv (amount * (cfg.transfer_fee_percent : Int)) 10000 ≤ amount :=
              tdiv_share_le hop hp
            refine ⟨fun a => ⟨?_, hL a⟩, ?_⟩
            · exact nonneg_balances_increase
                (nonneg_balances_increase
                  (nonneg_balances_decrease hB hlt) (by linarith))
                h1 a
            · intro c hc
              refine hI.2 c ?_
              rw [← hc]
              simp [hcfg]
          · rw [if_neg hfee, decrease_balance_eq_ok hlt] at hstep
            simp only [Except.ok.injEq] at hstep
            subst hstep
            refine ⟨fun a => ⟨?_, hL a⟩, ?_⟩
            · exact nonneg_balances_increase
                (nonneg_balances_decrease hB hlt) hop a
            · intro c hc
              refine hI.2 c ?_
              rw [← hc]
              simp [hcfg]
    | burnOp frm sid amount =>
      simp only [goodOp, decide_eq_true_eq] at hop
      simp only [step] at hstep
      unfold burn at hstep
      cases hcfg : s.config with
      | none => rw [hcfg] at hstep; simp at hstep
      | some cfg =>
        rw [hcfg] at hstep
        simp only [] at hstep
        by_cases hlt : s.balances frm < amount
        · rw [if_pos hlt] at hstep; simp at hstep
        · rw [if_neg hlt, decrease_balance_eq_ok hlt] at hstep
          simp only [Except.ok.injEq] at hstep
          subst hstep
          have hfa : (0 : Int) ≤ Int.tdiv (amount * (cfg.burn_fee_percent : Int)) 10000 :=
            tdiv_share_nonneg hop
          have hpf : (0 : Int) ≤
              Int.tdiv (Int.tdiv (amount * (cfg.burn_fee_percent : Int)) 10000) 2 :=
            tdiv_half_nonneg hfa
          have hle := tdiv_half_le hfa
          refine ⟨fun a => ⟨?_, hL a⟩, ?_⟩
          · exact nonneg_balances_increase
              (nonneg_balances_increase
                (nonneg_balances_decrease hB hlt) hpf)
              (by linarith) a
          · intro c hc
            refine hI.2 c ?_
            rw [← hc]
            simp [hcfg]
    | swapOp frm fs ts amount oracle =>
      simp only [goodOp, Bool.and_eq_true, decide_eq_true_eq] at hop
      simp only [step] at hstep
      unfold swap at hstep
      cases hcfg : s.config with
      | none => rw [hcfg] at hstep; simp at hstep
      | some cfg =>
        rw [hcfg] at hstep
        simp only [] at hstep
        by_cases hlt : s.balances frm < amount
        · rw [if_pos hlt] at hstep; simp at hstep
        · rw [if_neg hlt] at hstep
          cases hfm : s.seriesMeta fs with
          | none => rw [hfm] at hstep; simp at hstep
          | some fm =>
            rw [hfm] at hstep
            cases htm : s.seriesMeta ts with
            | none => rw [htm] at hstep; simp at hstep
            | some tm =>
              rw [htm] at hstep
              simp only [] at hstep
              by_cases hty : fm.asset_type ≠ tm.asset_type
              · rw [if_pos hty] at hstep; simp at hstep
              · rw [if_neg hty, decrease_balance_eq_ok hlt] at hstep
                simp only [Except.ok.injEq] at hstep
                subst hstep
                have hsw : (0 : Int) ≤ Int.tdiv (amount * oracle) 10000 :=
                  Int.tdiv_nonneg (mul_nonneg hop.1 hop.2) (by norm_num)
                refine ⟨fun a => ⟨?_, hL a⟩, ?_⟩
                · exact nonneg_balances_increase
                    (nonneg_balances_decrease hB hlt) hsw a
                · intro c hc
                  refine hI.2 c ?_
                  rw [← hc]
                  simp [hcfg]
    | setTransferFee p =>
      simp only [step] at hstep
      unfold set_transfer_fee at hstep
      cases hcfg : s.config with
      | none => rw [hcfg] at hstep; simp at hstep
      | some cfg =>
        rw [hcfg] at hstep
        simp only [] at hstep
        by_cases hhi : p > 500
        · rw [if_pos hhi] at hstep; simp at hstep
        · rw [if_neg hhi] at hstep
          simp only [Except.ok.injEq] at hstep
          subst hstep
          refine ⟨fun a => ⟨hB a, hL a⟩, ?_⟩
          intro c hc
          injection hc with hcc
          subst hcc
          show p ≤ 10000
          omega

lemma InvN_run {s : Storage} (ops : List Op)
    (hops : ∀ op ∈ ops, goodOp op = true) (hI : InvN s) :
    InvN (run s ops) := by
  induction ops generalizing s with
  | nil => exact hI
  | cons op rest ih =>
    have h1 : goodOp op = true := hops op (List.mem_cons_self op rest)
    have h2 : ∀ o ∈ rest, goodOp o = true := fun o ho =>
      hops o (List.mem_cons_of_mem op ho)
    exact ih h2 (InvN_exec h1 hI)

lemma InvN_s0 : InvN s0 :=
  ⟨fun _ => ⟨le_refl 0, le_refl 0⟩, fun c hc => by simp [s0] at hc⟩

/-
Explicit success forms of the minting operations, shared by several
claims below.
-/

lemma mint_future_ok_form (s : Storage) (cfg : TokenConfig) (sid : Ident)
    (m : SeriesMetadata) (buyer ga : Addr) (amount : Int)
    (hcfg : s.config = some cfg) (hfut : m.is_future = true) :
    step s (Op.mintFuture sid m buyer ga amount) = .ok
      { config := some cfg
        total_supply := s.total_supply + amount
        balances :=
          Function.update
            (Function.update s.balances cfg.admin
              (s.balances cfg.admin + Int.tdiv (amount * 50) 10000))
            ga
            (Function.update s.balances cfg.admin
              (s.balances cfg.admin + Int.tdiv (amount * 50) 10000) ga
              + Int.tdiv (amount * 50) 10000)
        locked :=
          Function.update s.locked buyer
            (s.locked buyer + Int.tdiv (amount * 9900) 10000)
        seriesMeta :=
          Function.update s.seriesMeta sid
            (some { m with buyer := some buyer, guarantee_agent := some ga }) } := by
  have hfut' : ¬((!m.is_future : Bool) = true) := by simp [hfut]
  simp only [step]
  unfold mint_future
  rw [hcfg]
  simp only []
  rw [if_neg hfut']
  rfl

lemma mint_spot_ok_form (s : Storage) (cfg : TokenConfig) (sid : Ident)
    (m : SeriesMetadata) (d : Distribution) (amount : Int)
    (hcfg : s.config = some cfg)
    (hd : d.producer_percent + d.platform_percent + d.storage_percent = 10000) :
    step s (Op.mintSpot sid m d amount) = .ok
      { config := some cfg
        total_supply := s.total_supply + amount
        balances :=
          Function.update
            (Function.update
              (Function.update s.balances d.producer_address
                (s.balances d.producer_address
                  + Int.tdiv (amount * (d.producer_percent : Int)) 10000))
              cfg.admin
              (Function.update s.balances d.producer_address
                (s.balances d.producer_address
                  + Int.tdiv (amount * (d.producer_percent : Int)) 10000) cfg.admin
                + Int.tdiv (amount * (d.platform_percent : Int)) 10000))
            d.storage_address
            (Function.update
              (Function.update s.balances d.producer_address
                (s.balances d.producer_address
                  + Int.tdiv (amount * (d.producer_percent : Int)) 10000))
              cfg.admin
              (Function.update s.balances d.producer_address
                (s.balances d.producer_address
                  + Int.tdiv (amount * (d.producer_percent : Int)) 10000) cfg.admin
                + Int.tdiv (amount * (d.platform_percent : Int)) 10000)
              d.storage_address
              + Int.tdiv (amount * (d.storage_percent : Int)) 10000)
        locked := s.locked
        seriesMeta := Function.update s.seriesMeta sid (some m) } := by
  have hd' : ¬ (d.producer_percent + d.platform_percent + d.storage_percent ≠ 10000) := by
    omega
  simp only [step]
  unfold mint_spot
  rw [hcfg]
  simp only []
  rw [if_neg hd']
  rfl

/-
Claim C1.
-/

/-- C1 (counterexample): from the set-up state, `mint_spot` of amount 1
  under the valid (9900, 50, 50) distribution credits three floored
  shares of 0 while adding 1 to the total supply, so the reachable state
  it produces violates `total_supply = sum of available + locked`. -/
theorem C1_counterexample : ¬ conserved (run s0 c1tr) := by
  intro h
  have hcov : covers (run s0 c1tr) ({0, 1, 2} : Finset Addr) := by
    intro a ha
    simp only [Finset.mem_insert, Finset.mem_singleton, not_or] at ha
    obtain ⟨h0, h1, h2⟩ := ha
    constructor
    · simp [c1tr, run, exec, step, mint_spot, initContract, s0, mdSpot, dstd,
        increase_balance, Function.update, h0, h1, h2]
    · rfl
  have h1 := h _ hcov
  have h2 : sumW ({0, 1, 2} : Finset Addr) (run s0 c1tr) = 0 := by decide
  have h3 : (run s0 c1tr).total_supply = 1 := by decide
  rw [h2, h3] at h1
  exact one_ne_zero h1

/-- C1 (amended): conservation is established by contract set-up and
  preserved by `transfer`, `burn`, `confirm_delivery`, and
  `set_transfer_fee`: along any sequence of those operations every state
  reached from the empty ledger satisfies
  `total_supply = sum of available + locked balances`.  (`mint_spot` and
  `mint_future` break it whenever their floored shares sum to less than
  the minted amount, and `swap` revalues a balance without adjusting the
  supply, as the counterexample shows.) -/
theorem C1_conservation_amended (ops : List Op)
    (hops : ∀ op ∈ ops, isConservative op = true) :
    conserved (run s0 ops) :=
  (InvC_run ops hops InvC_s0).1

theorem C1_witness :
    (∀ op ∈ c1wtr, isConservative op = true) ∧ conserved (run s0 c1wtr) :=
  ⟨by decide, C1_conservation_amended c1wtr (by decide)⟩

/-
Claim C2.
-/

/-- C2 (counterexample): a transfer of amount -5 passes the
  `balance < amount` check vacuously and drives the recipient's balance
  to -5, so a reachable state holds a negative available balance. -/
theorem C2_counterexample :
    (run s0 c2tr).balances 3 = -5 ∧ (run s0 c2tr).balances 3 < 0 := by
  decide

/-- C2 (amended): if every operation in the sequence supplies only
  nonnegative amounts (and, for swap, a nonnegative oracle rate), then
  every account's available and locked balance is nonnegative in the
  state reached from the empty ledger.  (With a negative amount the
  boundary checks pass vacuously and balances go negative, as the
  counterexample shows.) -/
theorem C2_nonneg_amended (ops : List Op)
    (hops : ∀ op ∈ ops, goodOp op = true) (a : Addr) :
    0 ≤ (run s0 ops).balances a ∧ 0 ≤ (run s0 ops).locked a :=
  (InvN_run ops hops InvN_s0).1 a

theorem C2_witness :
    (∀ op ∈ c2wtr, goodOp op = true) ∧
      (0 ≤ (run s0 c2wtr).balances 3 ∧ 0 ≤ (run s0 c2wtr).locked 3) :=
  ⟨by decide, C2_nonneg_amended c2wtr (by decide) 3⟩

/-
Claim C3.
-/

/-- C3 (counterexample): the transfer entry point performs no sign check;
  called with amount -5 it succeeds and mutates the ledger (recipient 3
  ends at -5), contradicting "fails before performing any ledger
  mutation". -/
theorem C3_counterexample :
    okB (step sInit (Op.transferOp 2 3 (-5) false)) = true ∧
      sInit.balances 3 = 0 ∧
      (exec sInit (Op.transferOp 2 3 (-5) false)).balances 3 = -5 := by
  decide

/-- C3 (amended): none of the amount-taking operations rejects a negative
  amount: from a configured state, `transfer`, `burn`, `mint_spot`,
  `mint_future`, and `swap` each succeed on a negative amount and mutate
  the ledger (a negative transfer credits the sender and debits the
  recipient; a negative burn credits the caller and raises the supply;
  negative mints record negative shares and supply; a negative swap can
  leave the caller negative). -/
theorem C3_negative_amounts_amended :
    (okB (step sInit (Op.transferOp 2 3 (-5) false)) = true ∧
      (exec sInit (Op.transferOp 2 3 (-5) false)).balances 2 = 5 ∧
      (exec sInit (Op.transferOp 2 3 (-5) false)).balances 3 = -5) ∧
    (okB (step sInit (Op.burnOp 4 40 (-5))) = true ∧
      (exec sInit (Op.burnOp 4 40 (-5))).balances 4 = 5 ∧
      (exec sInit (Op.burnOp 4 40 (-5))).total_supply = 5) ∧
    (okB (step sInit (Op.mintSpot 10 mdSpot dstd (-10000))) = true ∧
      (exec sInit (Op.mintSpot 10 mdSpot dstd (-10000))).balances 2 = -9900 ∧
      (exec sInit (Op.mintSpot 10 mdSpot dstd (-10000))).total_supply = -10000) ∧
    (okB (step sInit (Op.mintFuture 12 mdFut 3 4 (-10000))) = true ∧
      (exec sInit (Op.mintFuture 12 mdFut 3 4 (-10000))).locked 3 = -9900 ∧
      (exec sInit (Op.mintFuture 12 mdFut 3 4 (-10000))).total_supply = -10000) ∧
    (okB (step sTwoSeries (Op.swapOp 5 10 11 (-5) 20000)) = true ∧
      (exec sTwoSeries (Op.swapOp 5 10 11 (-5) 20000)).balances 5 = -5) := by
  decide

lemma confirm_noLocked_form (s : Storage) (cfg : TokenConfig)
    (M : SeriesMetadata) (sid : Ident) (buyer v : Addr)
    (hcfg : s.config = some cfg) (hmeta : s.seriesMeta sid = some M)
    (hfut : M.is_future = true) (hbuy : M.buyer = some buyer)
    (hz : s.locked buyer = 0) :
    step s (Op.confirmDelivery sid v) = .error Err.NoLockedTokens := by
  simp only [step]
  unfold confirm_delivery
  rw [hcfg, hmeta]
  simp only []
  rw [if_neg (by simp [hfut] : ¬((!M.is_future : Bool) = true))]
  rw [hbuy]
  simp only []
  rw [if_pos hz]

lemma confirm_ok_form (s : Storage) (cfg : TokenConfig)
    (M : SeriesMetadata) (sid : Ident) (buyer v : Addr)
    (hcfg : s.config = some cfg) (hmeta : s.seriesMeta sid = some M)
    (hfut : M.is_future = true) (hbuy : M.buyer = some buyer)
    (hnz : ¬ s.locked buyer = 0) :
    step s (Op.confirmDelivery sid v) = .ok
      (increase_balance (increase_locked_balance s buyer (-(s.locked buyer)))
        buyer (s.locked buyer)) := by
  simp only [step]
  unfold confirm_delivery
  rw [hcfg, hmeta]
  simp only []
  rw [if_neg (by simp [hfut] : ¬((!M.is_future : Bool) = true))]
  rw [hbuy]
  simp only []
  rw [if_neg hnz]
  rw [decrease_locked_eq_ok (lt_irrefl _ : ¬ s.locked buyer < s.locked buyer)]

lemma exec_of_step_ok {s s' : Storage} {op : Op}
    (h : step s op = .ok s') : exec s op = s' := by
  unfold exec
  rw [h]

lemma exec_of_step_error {s : Storage} {op : Op} {e : Err}
    (h : step s op = .error e) : exec s op = s := by
  unfold exec
  rw [h]

/-
Claim C4.
-/

/-- C4 (counterexample): with the admin as the buyer (whose available
  balance is 0 at the start), `mint_future` of 500000 also credits the
  admin's 0.5 percent platform fee as available balance, so after
  `confirm_delivery` the buyer's available balance is 497500, not the
  495000 that were locked immediately before the confirmation. -/
theorem C4_counterexample :
    sInit.balances 0 = 0 ∧ mdFut.is_future = true ∧
      c4s1.locked 0 = 495000 ∧ c4s2.locked 0 = 0 ∧
      c4s2.balances 0 = 497500 ∧ ¬ c4s2.balances 0 = c4s1.locked 0 := by
  decide

/-- C4 (amended): for every buyer distinct from the admin and from the
  guarantee agent whose available balance is 0, after
  `mint_future(amount, buyer, agent)` on future-flagged metadata followed
  by `confirm_delivery` for that series, the buyer's locked balance is 0
  and the buyer's available balance equals the locked amount held
  immediately before the confirmation (the entire current locked
  balance, including anything locked earlier, not a per-series portion);
  a second `confirm_delivery` for the same series fails with
  `NoLockedTokens`.  (When nothing is locked the confirmation itself
  already fails with `NoLockedTokens` and moves nothing.) -/
theorem C4_lock_unlock_amended (s : Storage) (cfg : TokenConfig)
    (sid : Ident) (m : SeriesMetadata) (buyer ga v v2 : Addr) (amount : Int)
    (hcfg : s.config = some cfg) (hfut : m.is_future = true)
    (hb0 : s.balances buyer = 0) (hba : buyer ≠ cfg.admin) (hbg : buyer ≠ ga) :
    (exec (exec s (Op.mintFuture sid m buyer ga amount))
        (Op.confirmDelivery sid v)).locked buyer = 0 ∧
    (exec (exec s (Op.mintFuture sid m buyer ga amount))
        (Op.confirmDelivery sid v)).balances buyer
      = (exec s (Op.mintFuture sid m buyer ga amount)).locked buyer ∧
    errOf (step (exec (exec s (Op.mintFuture sid m buyer ga amount))
        (Op.confirmDelivery sid v)) (Op.confirmDelivery sid v2))
      = some Err.NoLockedTokens := by
  have hstep1 := mint_future_ok_form s cfg sid m buyer ga amount hcfg hfut
  have hs1cfg : (exec s (Op.mintFuture sid m buyer ga amount)).config = some cfg := by
    rw [exec_of_step_ok hstep1]
  have hs1meta : (exec s (Op.mintFuture sid m buyer ga amount)).seriesMeta sid
      = some { m with buyer := some buyer, guarantee_agent := some ga } := by
    rw [exec_of_step_ok hstep1]
    exact Function.update_same _ _ _
  have hs1L : (exec s (Op.mintFuture sid m buyer ga amount)).locked buyer
      = s.locked buyer + Int.tdiv (amount * 9900) 10000 := by
    rw [exec_of_step_ok hstep1]
    exact Function.update_same _ _ _
  have hs1B : (exec s (Op.mintFuture sid m buyer ga amount)).balances buyer = 0 := by
    rw [exec_of_step_ok hstep1]
    simp only [Function.update_noteq hbg, Function.update_noteq hba]
    exact hb0
  by_cases hz : (exec s (Op.mintFuture sid m buyer ga amount)).locked buyer = 0
  · have hstep2 : ∀ w, step (exec s (Op.mintFuture sid m buyer ga amount))
        (Op.confirmDelivery sid w) = .error Err.NoLockedTokens := fun w =>
      confirm_noLocked_form _ cfg _ sid buyer w hs1cfg hs1meta hfut rfl hz
    have hexec2 : exec (exec s (Op.mintFuture sid m buyer ga amount))
        (Op.confirmDelivery sid v) = exec s (Op.mintFuture sid m buyer ga amount) :=
      exec_of_step_error (hstep2 v)
    refine ⟨?_, ?_, ?_⟩
    · rw [hexec2]
      exact hz
    · rw [hexec2, hs1B, hz]
    · rw [hexec2, hstep2 v2]
      rfl
  · have hstep2 := confirm_ok_form (exec s (Op.mintFuture sid m buyer ga amount))
      cfg _ sid buyer v hs1cfg hs1meta hfut rfl hz
    have hexec2 : exec (exec s (Op.mintFuture sid m buyer ga amount))
        (Op.confirmDelivery sid v)
        = increase_balance
            (increase_locked_balance (exec s (Op.mintFuture sid m buyer ga amount))
              buyer (-(exec s (Op.mintFuture sid m buyer ga amount)).locked buyer))
            buyer ((exec s (Op.mintFuture sid m buyer ga amount)).locked buyer) :=
      exec_of_step_ok hstep2
    have hz2 : (exec (exec s (Op.mintFuture sid m buyer ga amount))
        (Op.confirmDelivery sid v)).locked buyer = 0 := by
      rw [hexec2]
      simp only [increase_balance_locked]
      rw [increase_locked_at]
      simp
    refine ⟨hz2, ?_, ?_⟩
    · rw [hexec2]
      rw [increase_balance_at]
      simp only [increase_locked_balances]
      rw [hs1B]
      simp
    · have hs2cfg : (exec (exec s (Op.mintFuture sid m buyer ga amount))
          (Op.confirmDelivery sid v)).config = some cfg := by
        rw [hexec2]
        simp only [increase_balance_config, increase_locked_config]
        exact hs1cfg
      have hs2meta : (exec (exec s (Op.mintFuture sid m buyer ga amount))
          (Op.confirmDelivery sid v)).seriesMeta sid
          = some { m with buyer := some buyer, guarantee_agent := some ga } := by
        rw [hexec2]
        simp only [increase_balance_seriesMeta, increase_locked_seriesMeta]
        exact hs1meta
      rw [confirm_noLocked_form _ cfg _ sid buyer v2 hs2cfg hs2meta hfut rfl hz2]
      rfl

theorem C4_witness :
    (exec (exec sInit (Op.mintFuture 12 mdFut 3 4 500000))
        (Op.confirmDelivery 12 1)).locked 3 = 0 ∧
    (exec (exec sInit (Op.mintFuture 12 mdFut 3 4 500000))
        (Op.confirmDelivery 12 1)).balances 3 = 495000 ∧
    errOf (step (exec (exec sInit (Op.mintFuture 12 mdFut 3 4 500000))
        (Op.confirmDelivery 12 1)) (Op.confirmDelivery 12 1))
      = some Err.NoLockedTokens := by
  have h := C4_lock_unlock_amended sInit
    { name := 30, symbol := 31, admin := 0, storage_address := 1,
      transfer_fee_percent := 0, burn_fee_percent := 50,
      platform_fee_percent := 50, storage_fee_percent := 50 }
    12 mdFut 3 4 1 1 500000 (by decide) (by decide) (by decide)
    (by decide) (by decide)
  refine ⟨h.1, ?_, h.2.2⟩
  rw [h.2.1]
  decide

/-
Claim C5.
-/

/-- C5: for every nonnegative amount and fee rates in [0, 10000] basis
  points, `FeeCalculation::calculate` yields
  `mediator_fee = floor(amount * mediator_rate / 10000)` and
  `buyer_fee = floor(amount * buyer_rate / 10000)`, each computed
  independently from the gross amount, with
  `net = amount - mediator_fee - buyer_fee`; and with mediator fee 100 bp
  and buyer fee 50 bp, `process_fees_and_transfer` of 600 debits the
  sender 600 and credits the recipient 591, the mediator 6, and the
  buyer-fee recipient 3 (for pairwise distinct parties). -/
theorem C5_fee_split :
    (∀ (amount : Int) (cfg : Config), 0 ≤ amount →
      cfg.mediator_fee ≤ 10000 → cfg.buyer_fee ≤ 10000 →
      (FeeCalculation.calculate amount cfg).mediator_fee
          = Int.fdiv (amount * (cfg.mediator_fee : Int)) 10000 ∧
        (FeeCalculation.calculate amount cfg).buyer_fee
          = Int.fdiv (amount * (cfg.buyer_fee : Int)) 10000 ∧
        (FeeCalculation.calculate amount cfg).net_amount
          = amount - (FeeCalculation.calculate amount cfg).mediator_fee
            - (FeeCalculation.calculate amount cfg).buyer_fee) ∧
    (∀ (b : Addr → Int) (frm to_ med bfr : Addr),
      frm ≠ to_ → frm ≠ med → frm ≠ bfr → to_ ≠ med → to_ ≠ bfr → med ≠ bfr →
      600 ≤ b frm →
      okB (process_fees_and_transfer
          (some { mediator_address := med, mediator_fee := 100,
                  buyer_address := bfr, buyer_fee := 50, contango_hash := 0 })
          b frm to_ 600) = true ∧
      balOf (process_fees_and_transfer
          (some { mediator_address := med, mediator_fee := 100,
                  buyer_address := bfr, buyer_fee := 50, contango_hash := 0 })
          b frm to_ 600) b frm = b frm - 600 ∧
      balOf (process_fees_and_transfer
          (some { mediator_address := med, mediator_fee := 100,
                  buyer_address := bfr, buyer_fee := 50, contango_hash := 0 })
          b frm to_ 600) b to_ = b to_ + 591 ∧
      balOf (process_fees_and_transfer
          (some { mediator_address := med, mediator_fee := 100,
                  buyer_address := bfr, buyer_fee := 50, contango_hash := 0 })
          b frm to_ 600) b med = b med + 6 ∧
      balOf (process_fees_and_transfer
          (some { mediator_address := med, mediator_fee := 100,
                  buyer_address := bfr, buyer_fee := 50, contango_hash := 0 })
          b frm to_ 600) b bfr = b bfr + 3) := by
  constructor
  · intro amount cfg hamt _ _
    refine ⟨?_, ?_, ?_⟩
    · show Int.tdiv (amount * (cfg.mediator_fee : Int)) 10000
        = Int.fdiv (amount * (cfg.mediator_fee : Int)) 10000
      rw [Int.fdiv_eq_tdiv (mul_nonneg hamt (Int.natCast_nonneg _)) (by norm_num)]
    · show Int.tdiv (amount * (cfg.buyer_fee : Int)) 10000
        = Int.fdiv (amount * (cfg.buyer_fee : Int)) 10000
      rw [Int.fdiv_eq_tdiv (mul_nonneg hamt (Int.natCast_nonneg _)) (by norm_num)]
    · show amount - (Int.tdiv (amount * (cfg.mediator_fee : Int)) 10000
          + Int.tdiv (amount * (cfg.buyer_fee : Int)) 10000)
        = amount - Int.tdiv (amount * (cfg.mediator_fee : Int)) 10000
          - Int.tdiv (amount * (cfg.buyer_fee : Int)) 10000
      ring
  · intro b frm to_ med bfr hft hfm hfb htm htb hmb h600
    have hnlt : ¬ b frm < 600 := not_lt.mpr h600
    have hmed6 : (FeeCalculation.calculate 600
        { mediator_address := med, mediator_fee := 100,
          buyer_address := bfr, buyer_fee := 50, contango_hash := 0 }).mediator_fee
        = 6 := by
      simp only [FeeCalculation.calculate]
      decide
    have hbuy3 : (FeeCalculation.calculate 600
        { mediator_address := med, mediator_fee := 100,
          buyer_address := bfr, buyer_fee := 50, contango_hash := 0 }).buyer_fee
        = 3 := by
      simp only [FeeCalculation.calculate]
      decide
    have hnet : (FeeCalculation.calculate 600
        { mediator_address := med, mediator_fee := 100,
          buyer_address := bfr, buyer_fee := 50, contango_hash := 0 }).net_amount
        = 591 := by
      simp only [FeeCalculation.calculate]
      decide
    have hP : process_fees_and_transfer
        (some { mediator_address := med, mediator_fee := 100,
                buyer_address := bfr, buyer_fee := 50, contango_hash := 0 })
        b frm to_ 600
        = .ok (receive_balance (receive_balance (receive_balance
            (Function.update b frm (b frm - 600)) to_ 591) med 6) bfr 3) := by
      unfold process_fees_and_transfer spend_balance read_balance
      simp only []
      rw [if_neg hnlt, if_neg hnlt]
      simp only []
      rw [if_pos (show (0 : Int) < _ from by rw [hbuy3]; norm_num)]
      rw [if_pos (show (0 : Int) < _ from by rw [hmed6]; norm_num)]
      rw [hmed6, hbuy3, hnet]
    rw [hP]
    refine ⟨rfl, ?_, ?_, ?_, ?_⟩
    · show receive_balance (receive_balance (receive_balance
        (Function.update b frm (b frm - 600)) to_ 591) med 6) bfr 3 frm = b frm - 600
      unfold receive_balance
      rw [Function.update_noteq hfb, Function.update_noteq hfm,
        Function.update_noteq hft, Function.update_same]
    · show receive_balance (receive_balance (receive_balance
        (Function.update b frm (b frm - 600)) to_ 591) med 6) bfr 3 to_ = b to_ + 591
      unfold receive_balance
      rw [Function.update_noteq htb, Function.update_noteq htm,
        Function.update_same, Function.update_noteq (Ne.symm hft)]
    · show receive_balance (receive_balance (receive_balance
        (Function.update b frm (b frm - 600)) to_ 591) med 6) bfr 3 med = b med + 6
      unfold receive_balance
      rw [Function.update_noteq hmb, Function.update_same,
        Function.update_noteq (Ne.symm htm), Function.update_noteq (Ne.symm hfm)]
    · show receive_balance (receive_balance (receive_balance
        (Function.update b frm (b frm - 600)) to_ 591) med 6) bfr 3 bfr = b bfr + 3
      unfold receive_balance
      rw [Function.update_same, Function.update_noteq (Ne.symm hmb),
        Function.update_noteq (Ne.symm htb), Function.update_noteq (Ne.symm hfb)]

theorem C5_witness :
    ((FeeCalculation.calculate 1000
        { mediator_address := 8, mediator_fee := 100, buyer_address := 9,
          buyer_fee := 50, contango_hash := 0 }).mediator_fee = 10) ∧
    (balOf (process_fees_and_transfer
        (some { mediator_address := 7, mediator_fee := 100, buyer_address := 8,
                buyer_fee := 50, contango_hash := 0 })
        (fun _ => 600) 5 6 600) (fun _ => 600) 6 = 1191) := by
  have hA := (C5_fee_split.1 1000
    { mediator_address := 8, mediator_fee := 100, buyer_address := 9,
      buyer_fee := 50, contango_hash := 0 }
    (by norm_num) (by norm_num) (by norm_num)).1
  have hB := (C5_fee_split.2 (fun _ => 600) 5 6 7 8 (by decide) (by decide)
    (by decide) (by decide) (by decide) (by decide) (by norm_num)).2.2.1
  constructor
  · rw [hA]
    decide
  · rw [hB]
    decide

/-
Claim C6.
-/

/-- C6: `mint_future` credits `amount * 9900 / 10000` (truncating
  division, the spec's floor division of section 4.3) to the buyer's
  locked balance, `amount * 50 / 10000` each to the admin's and the
  guarantee agent's available balances, increments the total supply by
  the full amount, leaves the buyer's available balance untouched when
  the buyer is a distinct party, and fails with `NotAFutureContract`
  when the supplied metadata's future flag is not set. -/
theorem C6_mint_future (s : Storage) (cfg : TokenConfig) (sid : Ident)
    (m : SeriesMetadata) (buyer ga : Addr) (amount : Int)
    (hcfg : s.config = some cfg) (hag : cfg.admin ≠ ga) :
    (m.is_future = false →
      step s (Op.mintFuture sid m buyer ga amount)
        = .error Err.NotAFutureContract) ∧
    (m.is_future = true →
      okB (step s (Op.mintFuture sid m buyer ga amount)) = true ∧
      (exec s (Op.mintFuture sid m buyer ga amount)).locked buyer
        = s.locked buyer + Int.tdiv (amount * 9900) 10000 ∧
      (exec s (Op.mintFuture sid m buyer ga amount)).balances cfg.admin
        = s.balances cfg.admin + Int.tdiv (amount * 50) 10000 ∧
      (exec s (Op.mintFuture sid m buyer ga amount)).balances ga
        = s.balances ga + Int.tdiv (amount * 50) 10000 ∧
      (exec s (Op.mintFuture sid m buyer ga amount)).total_supply
        = s.total_supply + amount ∧
      (buyer ≠ cfg.admin → buyer ≠ ga →
        (exec s (Op.mintFuture sid m buyer ga amount)).balances buyer
          = s.balances buyer)) := by
  constructor
  · intro hf
    simp only [step]
    unfold mint_future
    rw [hcfg]
    simp only []
    rw [if_pos (by simp [hf] : ((!m.is_future : Bool) = true))]
  · intro hf
    have hstep := mint_future_ok_form s cfg sid m buyer ga amount hcfg hf
    refine ⟨by rw [hstep]; rfl, ?_, ?_, ?_, ?_, ?_⟩
    · rw [exec_of_step_ok hstep]
      exact Function.update_same _ _ _
    · rw [exec_of_step_ok hstep]
      simp only [Function.update_noteq hag, Function.update_same]
    · rw [exec_of_step_ok hstep]
      simp only [Function.update_same, Function.update_noteq (Ne.symm hag)]
    · rw [exec_of_step_ok hstep]
    · intro h1 h2
      rw [exec_of_step_ok hstep]
      simp only [Function.update_noteq h2, Function.update_noteq h1]

theorem C6_witness :
    okB (step sInit (Op.mintFuture 12 mdFut 3 4 500000)) = true ∧
      (exec sInit (Op.mintFuture 12 mdFut 3 4 500000)).locked 3 = 495000 ∧
      (exec sInit (Op.mintFuture 12 mdFut 3 4 500000)).balances 0 = 2500 ∧
      (exec sInit (Op.mintFuture 12 mdFut 3 4 500000)).balances 4 = 2500 ∧
      (exec sInit (Op.mintFuture 12 mdFut 3 4 500000)).total_supply = 500000 ∧
      (exec sInit (Op.mintFuture 12 mdFut 3 4 500000)).balances 3 = 0 := by
  have h := (C6_mint_future sInit
    { name := 30, symbol := 31, admin := 0, storage_address := 1,
      transfer_fee_percent := 0, burn_fee_percent := 50,
      platform_fee_percent := 50, storage_fee_percent := 50 }
    12 mdFut 3 4 500000 (by decide) (by decide)).2 (by decide)
  refine ⟨h.1, ?_, ?_, ?_, ?_, ?_⟩
  · rw [h.2.1]
    decide
  · rw [h.2.2.1]
    decide
  · rw [h.2.2.2.1]
    decide
  · rw [h.2.2.2.2.1]
    decide
  · rw [h.2.2.2.2.2 (by decide) (by decide)]
    decide

/-
Claim C7.
-/

/-- C7: for pairwise distinct producer, admin, and storage addresses and
  a distribution summing to 10000 bp, `mint_spot` credits each party
  with `amount * its_percent / 10000` (truncating division, the spec's
  floor division of section 4.3), each share computed independently from
  the gross amount, and increments the total supply by the full amount
  even when the three floored shares sum to less than the amount. -/
theorem C7_mint_spot (s : Storage) (cfg : TokenConfig) (sid : Ident)
    (m : SeriesMetadata) (d : Distribution) (amount : Int)
    (hcfg : s.config = some cfg)
    (hsum : d.producer_percent + d.platform_percent + d.storage_percent = 10000)
    (hpa : d.producer_address ≠ cfg.admin)
    (hps : d.producer_address ≠ d.storage_address)
    (has : cfg.admin ≠ d.storage_address) :
    okB (step s (Op.mintSpot sid m d amount)) = true ∧
      (exec s (Op.mintSpot sid m d amount)).balances d.producer_address
        = s.balances d.producer_address
          + Int.tdiv (amount * (d.producer_percent : Int)) 10000 ∧
      (exec s (Op.mintSpot sid m d amount)).balances cfg.admin
        = s.balances cfg.admin
          + Int.tdiv (amount * (d.platform_percent : Int)) 10000 ∧
      (exec s (Op.mintSpot sid m d amount)).balances d.storage_address
        = s.balances d.storage_address
          + Int.tdiv (amount * (d.storage_percent : Int)) 10000 ∧
      (exec s (Op.mintSpot sid m d amount)).total_supply
        = s.total_supply + amount := by
  have hstep := mint_spot_ok_form s cfg sid m d amount hcfg hsum
  refine ⟨by rw [hstep]; rfl, ?_, ?_, ?_, ?_⟩
  · rw [exec_of_step_ok hstep]
    simp only [Function.update_noteq hps, Function.update_noteq hpa,
      Function.update_same]
  · rw [exec_of_step_ok hstep]
    simp only [Function.update_noteq has, Function.update_same,
      Function.update_noteq (Ne.symm hpa)]
  · rw [exec_of_step_ok hstep]
    simp only [Function.update_same, Function.update_noteq (Ne.symm has),
      Function.update_noteq (Ne.symm hps)]
  · rw [exec_of_step_ok hstep]

theorem C7_witness :
    okB (step sInit (Op.mintSpot 10 mdSpot dstd 1000000)) = true ∧
      (exec sInit (Op.mintSpot 10 mdSpot dstd 1000000)).balances 2 = 990000 ∧
      (exec sInit (Op.mintSpot 10 mdSpot dstd 1000000)).balances 0 = 5000 ∧
      (exec sInit (Op.mintSpot 10 mdSpot dstd 1000000)).balances 1 = 5000 ∧
      (exec sInit (Op.mintSpot 10 mdSpot dstd 1000000)).total_supply = 1000000 := by
  have h := C7_mint_spot sInit
    { name := 30, symbol := 31, admin := 0, storage_address := 1,
      transfer_fee_percent := 0, burn_fee_percent := 50,
      platform_fee_percent := 50, storage_fee_percent := 50 }
    10 mdSpot dstd 1000000 (by decide) (by decide) (by decide) (by decide)
    (by decide)
  simp only [dstd] at h ⊢
  refine ⟨h.1, ?_, ?_, ?_, ?_⟩
  · rw [h.2.1]
    decide
  · rw [h.2.2.1]
    decide
  · rw [h.2.2.2.1]
    decide
  · rw [h.2.2.2.2]
    decide

/-
Claim C8.
-/

/-- C8: `mint_spot` fails with `InvalidDistribution` if and only if the
  three distribution percentages do not sum to 10000, and on that
  failure no storage mutation occurs. -/
theorem C8_distribution_validity (s : Storage) (cfg : TokenConfig)
    (sid : Ident) (m : SeriesMetadata) (d : Distribution) (amount : Int)
    (hcfg : s.config = some cfg) :
    (step s (Op.mintSpot sid m d amount) = .error Err.InvalidDistribution
      ↔ d.producer_percent + d.platform_percent + d.storage_percent ≠ 10000) ∧
    (d.producer_percent + d.platform_percent + d.storage_percent ≠ 10000 →
      exec s (Op.mintSpot sid m d amount) = s) := by
  by_cases hsum : d.producer_percent + d.platform_percent + d.storage_percent ≠ 10000
  · have hstep : step s (Op.mintSpot sid m d amount)
        = .error Err.InvalidDistribution := by
      simp only [step]
      unfold mint_spot
      rw [hcfg]
      simp only []
      rw [if_pos hsum]
    exact ⟨⟨fun _ => hsum, fun _ => hstep⟩,
      fun _ => exec_of_step_error hstep⟩
  · have hstep := mint_spot_ok_form s cfg sid m d amount hcfg (by omega)
    refine ⟨⟨fun h => ?_, fun h => absurd h hsum⟩, fun h => absurd h hsum⟩
    rw [hstep] at h
    exact Except.noConfusion h

theorem C8_witness :
    step sInit (Op.mintSpot 10 mdSpot dbad 1000000)
        = .error Err.InvalidDistribution ∧
      exec sInit (Op.mintSpot 10 mdSpot dbad 1000000) = sInit ∧
      ¬ step sInit (Op.mintSpot 10 mdSpot dstd 1000000)
        = .error Err.InvalidDistribution := by
  have h1 := C8_distribution_validity sInit
    { name := 30, symbol := 31, admin := 0, storage_address := 1,
      transfer_fee_percent := 0, burn_fee_percent := 50,
      platform_fee_percent := 50, storage_fee_percent := 50 }
    10 mdSpot dbad 1000000 (by decide)
  have h2 := C8_distribution_validity sInit
    { name := 30, symbol := 31, admin := 0, storage_address := 1,
      transfer_fee_percent := 0, burn_fee_percent := 50,
      platform_fee_percent := 50, storage_fee_percent := 50 }
    10 mdSpot dstd 1000000 (by decide)
  refine ⟨h1.1.mpr (by decide), h1.2 (by decide), fun hc => ?_⟩
  have hne := h2.1.mp hc
  exact hne (by decide)

/-
Claim C9.
-/

/-- C9 (counterexample): `swap` checks the caller's balance before
  looking up the series: from the configured state (where series 10 does
  not exist) a swap of amount 7 by a caller with balance 0 fails with
  `InsufficientBalance`, not with `SeriesNotFound` as the claim orders
  the checks. -/
theorem C9_counterexample :
    sInit.seriesMeta 10 = none ∧
      errOf (step sInit (Op.swapOp 5 10 11 7 10000))
        = some Err.InsufficientBalance ∧
      Err.InsufficientBalance ≠ Err.SeriesNotFound := by
  decide

lemma swap_ok_form (s : Storage) (cfg : TokenConfig) (frm : Addr)
    (fs ts : Ident) (amount oracle : Int) (fm tm : SeriesMetadata)
    (hcfg : s.config = some cfg) (hlt : ¬ s.balances frm < amount)
    (hfm : s.seriesMeta fs = some fm) (htm : s.seriesMeta ts = some tm)
    (hty : fm.asset_type = tm.asset_type) :
    step s (Op.swapOp frm fs ts amount oracle) = .ok
      (increase_balance (increase_balance s frm (-amount)) frm
        (Int.tdiv (amount * oracle) 10000)) := by
  simp only [step]
  unfold swap
  rw [hcfg]
  simp only []
  rw [if_neg hlt, hfm, htm]
  simp only []
  rw [if_neg (by simp [hty] : ¬ fm.asset_type ≠ tm.asset_type)]
  rw [decrease_balance_eq_ok hlt]

/-- C9 (amended): `swap` checks the caller's balance first, failing with
  `InsufficientBalance` when it is below `amount`; with sufficient
  balance it fails with `SeriesNotFound` when either series is absent
  and with `IncompatibleAssetTypes` when their asset types differ;
  otherwise it computes `swap_amount = amount * oracle_rate / 10000`
  (truncating division), debits the caller by `amount` and credits the
  caller by `swap_amount`, changing no other account, no locked balance,
  and no total supply. -/
theorem C9_swap_amended (s : Storage) (cfg : TokenConfig) (frm : Addr)
    (fs ts : Ident) (amount oracle : Int) (hcfg : s.config = some cfg) :
    (s.balances frm < amount →
      step s (Op.swapOp frm fs ts amount oracle)
        = .error Err.InsufficientBalance) ∧
    (¬ s.balances frm < amount →
      (s.seriesMeta fs = none →
        step s (Op.swapOp frm fs ts amount oracle)
          = .error Err.SeriesNotFound) ∧
      (∀ fm, s.seriesMeta fs = some fm → s.seriesMeta ts = none →
        step s (Op.swapOp frm fs ts amount oracle)
          = .error Err.SeriesNotFound) ∧
      (∀ fm tm, s.seriesMeta fs = some fm → s.seriesMeta ts = some tm →
        (fm.asset_type ≠ tm.asset_type →
          step s (Op.swapOp frm fs ts amount oracle)
            = .error Err.IncompatibleAssetTypes) ∧
        (fm.asset_type = tm.asset_type →
          okB (step s (Op.swapOp frm fs ts amount oracle)) = true ∧
          (exec s (Op.swapOp frm fs ts amount oracle)).balances frm
            = s.balances frm - amount + Int.tdiv (amount * oracle) 10000 ∧
          (∀ b, b ≠ frm →
            (exec s (Op.swapOp frm fs ts amount oracle)).balances b
              = s.balances b) ∧
          (∀ b, (exec s (Op.swapOp frm fs ts amount oracle)).locked b
            = s.locked b) ∧
          (exec s (Op.swapOp frm fs ts amount oracle)).total_supply
            = s.total_supply))) := by
  constructor
  · intro hlt
    simp only [step]
    unfold swap
    rw [hcfg]
    simp only []
    rw [if_pos hlt]
  · intro hlt
    refine ⟨?_, ?_, ?_⟩
    · intro hfs
      simp only [step]
      unfold swap
      rw [hcfg]
      simp only []
      rw [if_neg hlt, hfs]
    · intro fm hfm hts
      simp only [step]
      unfold swap
      rw [hcfg]
      simp only []
      rw [if_neg hlt, hfm, hts]
    · intro fm tm hfm htm
      constructor
      · intro hty
        simp only [step]
        unfold swap
        rw [hcfg]
        simp only []
        rw [if_neg hlt, hfm, htm]
        simp only []
        rw [if_pos hty]
      · intro hty
        have hstep := swap_ok_form s cfg frm fs ts amount oracle fm tm
          hcfg hlt hfm htm hty
        refine ⟨by rw [hstep]; rfl, ?_, ?_, ?_, ?_⟩
        · rw [exec_of_step_ok hstep]
          rw [increase_balance_at, increase_balance_at]
          ring
        · intro b hb
          rw [exec_of_step_ok hstep]
          simp only [increase_balance, Function.update_noteq hb]
        · intro b
          rw [exec_of_step_ok hstep]
          simp only [increase_balance_locked]
        · rw [exec_of_step_ok hstep]
          simp only [increase_balance_supply]

theorem C9_witness :
    okB (step sTwoSeries (Op.swapOp 5 10 11 0 10000)) = true ∧
      (exec sTwoSeries (Op.swapOp 5 10 11 0 10000)).balances 5 = 0 ∧
      step sTwoSeries (Op.swapOp 5 77 11 0 10000)
        = .error Err.SeriesNotFound := by
  have h1 := (C9_swap_amended sTwoSeries
    { name := 30, symbol := 31, admin := 0, storage_address := 1,
      transfer_fee_percent := 0, burn_fee_percent := 50,
      platform_fee_percent := 50, storage_fee_percent := 50 }
    5 10 11 0 10000 (by decide)).2 (by decide)
  have h2 := (C9_swap_amended sTwoSeries
    { name := 30, symbol := 31, admin := 0, storage_address := 1,
      transfer_fee_percent := 0, burn_fee_percent := 50,
      platform_fee_percent := 50, storage_fee_percent := 50 }
    5 77 11 0 10000 (by decide)).2 (by decide)
  have hsucc := (h1.2.2 mdSpot mdSpot (by decide) (by decide)).2 rfl
  refine ⟨hsucc.1, ?_, h2.1 (by decide)⟩
  rw [hsucc.2.1]
  decide

/-
Claim C10.
-/

/-- C10: `mint_spot` stores the caller-supplied metadata without
  checking its future flag, so a series can exist with
  `is_future = true` and `buyer = None`; `confirm_delivery` on such a
  series passes the `SeriesNotFound` and `NotAFutureContract` checks and
  then panics unwrapping the absent buyer — an abort outside the spec's
  error taxonomy. -/
theorem C10_confirm_delivery_unwrap :
    c10s.seriesMeta 13 = some mdFutNoBuyer ∧
      mdFutNoBuyer.is_future = true ∧
      mdFutNoBuyer.buyer = none ∧
      errOf (step c10s (Op.confirmDelivery 13 1)) = some Err.UnwrapNone ∧
      inSpecTaxonomy Err.UnwrapNone = false := by
  decide
